import Mathlib

/-!
Verification of cocaine-core: channel framing, job publication and the connection actor.

A shallow embedding of

* `include/cocaine/networking.hpp` (`socket_t`, `raw<T>`, `channel_t`),
* `include/cocaine/detail/rpc.hpp` (the `invoke` command tuple),
* `src/job.cpp` (`publication_t::respond`, `publication_t::abort`),
* `src/actor.cpp` (`actor_t::run`, `terminate`, `is_active`, `endpoints`, and the accept
  loop of `actor_t::accept_action_t`),
* `include/cocaine/detail/service/locator/routing.hpp` (the continuum elements and their
  comparison operators; the lookup itself is modelled from the specification),

followed by the properties established about them.

Conventions.  A `std::string` and a `zmq::message_t` are both length-counted byte
sequences and are embedded as `List Byte`.  Stateful code passes its state explicitly.
A C++ call that may throw returns an `Except`; a `try`/`catch` block is a `match` on it.
External libraries (ZeroMQ, msgpack, jsoncpp, asio) are parameters of the embedding.
-/

namespace cocaine

/-! ## Bytes, strings, frames -/

/-- One octet. -/
abbrev Byte := Fin 256

/-- The C++ `std::string`: a length-counted sequence of bytes (zero bytes allowed). -/
abbrev std_string := List Byte

/-- The C++ `zmq::message_t`: `data()` is the list, `size()` is its length. -/
abbrev message_t := List Byte

/-- The call `message.rebuild(size)`: a fresh buffer of `size` bytes.  Its content is
indeterminate in C++; every use in the embedded code overwrites all of it. -/
def message_t.rebuild (size : Nat) : message_t :=
  List.replicate size 0

/-- The call `memcpy(dst, src, n)`: the first `n` bytes of `dst` are replaced by the
first `n` bytes of `src`. -/
def memcpy (dst src : List Byte) (n : Nat) : List Byte :=
  src.take n ++ dst.drop n

/-- The call `object.assign(data, size)` of `std::string`. -/
def std_string.assign (data : List Byte) (size : Nat) : std_string :=
  data.take size

/-- Send/receive flags: the bit pattern of the C++ `int flags`. -/
abbrev Flags := Nat

/-- The constant `ZMQ_SNDMORE` of `zmq.h`. -/
def ZMQ_SNDMORE : Flags := 2

namespace lines

/-! ## The ZeroMQ socket underneath -/

/-- The exception `zmq::error_t`, with its `what()` text. -/
structure error_t where
  what : String
  deriving DecidableEq, Repr

/-- The two operations of `zmq::socket_t` that `socket_t` forwards to, over a transport
state `σ`.  Each either returns its boolean or throws `zmq::error_t`.  `recv` is given
the message object it may fill and returns that object after the call. -/
structure zmq_socket_t (σ : Type) where
  send : message_t → Flags → σ → Except error_t Bool × σ
  recv : message_t → Flags → σ → Except error_t Bool × message_t × σ

/-- What the code can see and change: the state of `m_socket` and the lines written to
`syslog`. -/
structure net_t (σ : Type) where
  sock : σ
  syslog : List String

/-- Embedding of `socket_t::send(zmq::message_t&, int)`. -/
def socket_t.send {σ : Type} (m_socket : zmq_socket_t σ) (message : message_t)
    (flags : Flags) (w : net_t σ) : Bool × net_t σ :=
  match m_socket.send message flags w.sock with
  | (Except.ok r, s) => (r, { w with sock := s })
  | (Except.error e, s) =>
      (false, { sock := s, syslog := w.syslog ++ ["net: [send()] " ++ e.what] })

/-- Embedding of `socket_t::recv(zmq::message_t*, int)`; the second component is the
pointed-to message after the call. -/
def socket_t.recv {σ : Type} (m_socket : zmq_socket_t σ) (message : message_t)
    (flags : Flags) (w : net_t σ) : Bool × message_t × net_t σ :=
  match m_socket.recv message flags w.sock with
  | (Except.ok r, m, s) => (r, m, { w with sock := s })
  | (Except.error e, m, s) =>
      (false, m, { sock := s, syslog := w.syslog ++ ["net: [recv()] " ++ e.what] })

/-! ## Raw frames -/

/-- Embedding of `raw<std::string>::pack` (and of `raw<const std::string>::pack`). -/
def raw.pack (m_object : std_string) : message_t :=
  memcpy (message_t.rebuild m_object.length) m_object m_object.length

/-- Embedding of `raw<std::string>::unpack`: the returned boolean and the new value of
the referenced string. -/
def raw.unpack (message : message_t) : Bool × std_string :=
  (true, std_string.assign message message.length)

/-! ## The msgpack codec -/

/-- The msgpack library as used by `channel_t`, for values of type `α` and unpacked
objects of type `ω`: `msgpack::pack`, `msgpack::unpack` (which may throw) and
`object.convert(&result)` (which may throw, and returns `result` as it left it).  What
msgpack throws (`unpack_error`, `type_error`) derives from `std::exception`; an error
carries its `what()` text. -/
structure msgpack_t (α ω : Type) where
  pack : α → List Byte
  unpack : List Byte → Except String ω
  convert : ω → α → Except String Unit × α

/-! ## channel_t -/

/-- Embedding of the template `channel_t::send(const T&, int)`. -/
def channel_t.send {σ α ω : Type} (m_socket : zmq_socket_t σ) (mp : msgpack_t α ω)
    (value : α) (flags : Flags) (w : net_t σ) : Bool × net_t σ :=
  let buffer := mp.pack value
  let message := memcpy (message_t.rebuild buffer.length) buffer buffer.length
  socket_t.send m_socket message flags w

/-- Embedding of `channel_t::send(const raw<T>&, int)`. -/
def channel_t.send_raw {σ : Type} (m_socket : zmq_socket_t σ) (object : std_string)
    (flags : Flags) (w : net_t σ) : Bool × net_t σ :=
  let message := raw.pack object
  socket_t.send m_socket message flags w

/-- Embedding of the template `channel_t::recv(T&, int)`: the boolean, the referenced
`result` after the call, and the state. -/
def channel_t.recv {σ α ω : Type} (m_socket : zmq_socket_t σ) (mp : msgpack_t α ω)
    (result : α) (flags : Flags) (w : net_t σ) : Bool × α × net_t σ :=
  match socket_t.recv m_socket [] flags w with
  | (false, _, w1) => (false, result, w1)
  | (true, message, w1) =>
      match mp.unpack message with
      | Except.error e =>
          (false, result,
            { w1 with syslog := w1.syslog ++ ["net: [recv()] corrupted object - " ++ e] })
      | Except.ok object =>
          match mp.convert object result with
          | (Except.error e, r) =>
              (false, r,
                { w1 with syslog := w1.syslog ++ ["net: [recv()] corrupted object - " ++ e] })
          | (Except.ok _, r) => (true, r, w1)

/-- Embedding of `channel_t::recv(raw<T>&, int)`. -/
def channel_t.recv_raw {σ : Type} (m_socket : zmq_socket_t σ) (result : std_string)
    (flags : Flags) (w : net_t σ) : Bool × std_string × net_t σ :=
  match socket_t.recv m_socket [] flags w with
  | (false, _, w1) => (false, result, w1)
  | (true, message, w1) => ((raw.unpack message).1, (raw.unpack message).2, w1)

/-- One component of a `boost::tuple` handed to `send_multi` or `recv_multi`, by the
overload of `send`/`recv` that C++ selects for it:
`value` is any `T` that goes through msgpack, `raw` is a `raw<std::string>`, and
`message` is a bare `zmq::message_t` (sent by reference through `socket_t::send`, as in
the `invoke` command; received through a `zmq::message_t*` by `socket_t::recv`). -/
inductive item_t (α : Type) where
  | value (v : α)
  | raw (s : std_string)
  | message (m : message_t)
  deriving DecidableEq, Repr

/-- The call `send(o.get_head(), flags)` inside `send_multi`, after overload
resolution. -/
def channel_t.send_head {σ α ω : Type} (m_socket : zmq_socket_t σ) (mp : msgpack_t α ω)
    (head : item_t α) (flags : Flags) (w : net_t σ) : Bool × net_t σ :=
  match head with
  | item_t.value v => channel_t.send m_socket mp v flags w
  | item_t.raw s => channel_t.send_raw m_socket s flags w
  | item_t.message m => socket_t.send m_socket m flags w

/-- The call `recv(o.get_head(), flags)` inside `recv_multi`, after overload
resolution; the second component is the head after the call. -/
def channel_t.recv_head {σ α ω : Type} (m_socket : zmq_socket_t σ) (mp : msgpack_t α ω)
    (head : item_t α) (flags : Flags) (w : net_t σ) : Bool × item_t α × net_t σ :=
  match head with
  | item_t.value v =>
      let r := channel_t.recv m_socket mp v flags w
      (r.1, item_t.value r.2.1, r.2.2)
  | item_t.raw s =>
      let r := channel_t.recv_raw m_socket s flags w
      (r.1, item_t.raw r.2.1, r.2.2)
  | item_t.message m =>
      let r := socket_t.recv m_socket m flags w
      (r.1, item_t.message r.2.1, r.2.2)

/-- Embedding of the three overloads of `channel_t::send_multi`: `null_type`,
`cons<Head, null_type>` and `cons<Head, Tail>`.  The operator `&&` does not evaluate its
right operand when the left one is false. -/
def channel_t.send_multi {σ α ω : Type} (m_socket : zmq_socket_t σ) (mp : msgpack_t α ω) :
    List (item_t α) → Flags → net_t σ → Bool × net_t σ
  | [], _, w => (true, w)
  | [head], flags, w => channel_t.send_head m_socket mp head flags w
  | head :: next :: tail, flags, w =>
      match channel_t.send_head m_socket mp head (ZMQ_SNDMORE ||| flags) w with
      | (true, w1) => channel_t.send_multi m_socket mp (next :: tail) flags w1
      | (false, w1) => (false, w1)

/-- Embedding of the two overloads of `channel_t::recv_multi`: the boolean, the tuple
after the call, and the state. -/
def channel_t.recv_multi {σ α ω : Type} (m_socket : zmq_socket_t σ) (mp : msgpack_t α ω) :
    List (item_t α) → Flags → net_t σ → Bool × List (item_t α) × net_t σ
  | [], _, w => (true, [], w)
  | head :: tail, flags, w =>
      match channel_t.recv_head m_socket mp head flags w with
      | (true, head1, w1) =>
          let r := channel_t.recv_multi m_socket mp tail flags w1
          (r.1, head1 :: r.2.1, r.2.2)
      | (false, head1, w1) => (false, head1 :: tail, w1)

/-! ## Observing the calls made on the socket -/

/-- One call on the underlying `zmq::socket_t`, with what it answered. -/
inductive call_t where
  | send (message : message_t) (flags : Flags) (outcome : Except error_t Bool)
  | recv (flags : Flags) (outcome : Except error_t Bool)

/-- The call returned `true` (it neither returned `false` nor threw). -/
def call_t.succeeded : call_t → Bool
  | call_t.send _ _ (Except.ok b) => b
  | call_t.recv _ (Except.ok b) => b
  | _ => false

/-- The same socket, with every call appended to a journal kept next to its state.  The
embedded code runs on it unchanged. -/
def traced {σ : Type} (m_socket : zmq_socket_t σ) : zmq_socket_t (σ × List call_t) where
  send message flags s :=
    let r := m_socket.send message flags s.1
    (r.1, (r.2, s.2 ++ [call_t.send message flags r.1]))
  recv message flags s :=
    let r := m_socket.recv message flags s.1
    (r.1, r.2.1, (r.2.2, s.2 ++ [call_t.recv flags r.1]))

/-- The frame a tuple component is sent as: msgpack bytes for a value, the bytes
themselves for a raw string or a bare message. -/
def frame_of {α ω : Type} (mp : msgpack_t α ω) : item_t α → message_t
  | item_t.value v => mp.pack v
  | item_t.raw s => s
  | item_t.message m => m

/-! ## Concrete sockets and a concrete codec -/

/-- A lossless in-order channel: the state is the queue of frames in flight, each with
its more-flag.  `send` appends and returns `true`; `recv` takes the oldest frame, or
returns `false` (nothing to read) on an empty queue.  Neither throws. -/
def queue_socket : zmq_socket_t (List (message_t × Bool)) where
  send message flags q := (Except.ok true, q ++ [(message, flags &&& ZMQ_SNDMORE != 0)])
  recv message _ q :=
    match q with
    | [] => (Except.ok false, message, [])
    | (m, _) :: rest => (Except.ok true, m, rest)

/-- A socket whose peer accepts a bounded number of frames: the state is how many more
sends succeed; after that `send` throws.  `recv` has nothing to read. -/
def bounded_socket : zmq_socket_t Nat where
  send _ _ n :=
    match n with
    | 0 => (Except.error { what := "Resource temporarily unavailable" }, 0)
    | k + 1 => (Except.ok true, k)
  recv message _ n := (Except.ok false, message, n)

/-- Big-endian bytes of a 32-bit length. -/
def be32 (n : Nat) : List Byte :=
  [Fin.ofNat (n / 16777216 % 256), Fin.ofNat (n / 65536 % 256), Fin.ofNat (n / 256 % 256),
   Fin.ofNat (n % 256)]

/-- A concrete string codec to run the embedded code on, laid out like msgpack raw
data: header byte `0xa0 + length` for strings shorter than 32 bytes, otherwise header
`0xdb` and a big-endian 32-bit length; then the bytes.  `convert` into a string stores
the bytes. -/
def raw_codec : msgpack_t std_string std_string where
  pack s :=
    if s.length < 32 then Fin.ofNat (160 + s.length) :: s
    else (219 : Byte) :: (be32 s.length ++ s)
  unpack bytes :=
    match bytes with
    | [] => Except.error "insufficient bytes"
    | h :: rest =>
        if 160 ≤ h.val ∧ h.val < 192 then
          if rest.length = h.val - 160 then Except.ok rest
          else Except.error "insufficient bytes"
        else if h.val = 219 then
          if be32 (rest.length - 4) = rest.take 4 ∧ 4 ≤ rest.length then Except.ok (rest.drop 4)
          else Except.error "insufficient bytes"
        else Except.error "parse error"
  convert object _ := (Except.ok (), object)

end lines

namespace io

/-- Embedding of the constructor of `command<rpc::domain, rpc::invoke>`: the tuple
`(event, message)` where `message` is a fresh `zmq::message_t` of `size` bytes filled by
`memcpy` from `data`. -/
def invoke_command {α : Type} (event : α) (data : List Byte) (size : Nat) :
    List (lines.item_t α) :=
  [lines.item_t.value event,
   lines.item_t.message (memcpy (message_t.rebuild size) data size)]

end io

/-! ## Jobs and publications (`src/job.cpp`) -/

namespace Json

/-- The jsoncpp `Json::Value`. -/
inductive Value where
  | null
  | bool (b : Bool)
  | number (n : Int)
  | string (s : String)
  | array (items : List Value)
  | object (members : List (String × Value))

end Json

namespace helpers

/-- Modelled from the spec: `helpers::make_json(key, value)` is declared outside the
given sources; the specification calls what it builds a synthetic error result, that is
the JSON object with the single member `key` holding the string `value`. -/
def make_json (key : String) (value : String) : Json.Value :=
  Json.Value.object [(key, Json.Value.string value)]

end helpers

namespace engine

/-- The part of `driver_t` a job uses: `method()` and the identity of `engine()`. -/
structure driver_t where
  method : String
  engine : String
  deriving DecidableEq, Repr

/-- One call `engine->publish(method, value)`. -/
structure publish_t where
  engine : String
  method : String
  value : Json.Value

/-- Embedding of `engine_t::publish` as seen from a job: the call is recorded, in order. -/
def engine_t.publish (m_parent : driver_t) (value : Json.Value) (published : List publish_t) :
    List publish_t :=
  published ++ [{ engine := m_parent.engine, method := m_parent.method, value := value }]

set_option linter.unusedVariables false in
/-- Embedding of `publication_t::respond`.  `parse` is `Json::Reader::parse` in strict
mode: the root value on success, `none` on failure. -/
def publication_t.respond (parse : List Byte → Option Json.Value) (m_parent : driver_t)
    (chunk : message_t) (published : List publish_t) : List publish_t :=
  match parse (chunk.take chunk.length) with
  | some root => engine_t.publish m_parent root published
  | none =>
      engine_t.publish m_parent (helpers.make_json "error" "unable to parse the json") published

set_option linter.unusedVariables false in
/-- Embedding of `publication_t::abort`.  The `error_code` is the integer value of the
enumerator. -/
def publication_t.abort (m_parent : driver_t) (code : Int) (error : String)
    (published : List publish_t) : List publish_t :=
  engine_t.publish m_parent (helpers.make_json "error" error) published

/-- The member `key` of a JSON value: the first member of that name of an object. -/
def member (key : String) : Json.Value → Option Json.Value
  | Json.Value.object members => (members.find? (fun kv => kv.1 == key)).map (fun kv => kv.2)
  | _ => none

/-- A strict-mode reader that knows two documents, enough to run `respond` on examples:
`[]` parses to the empty array, `{}` to the empty object, anything else fails. -/
def tiny_reader (bytes : List Byte) : Option Json.Value :=
  if bytes = [91, 93] then some (Json.Value.array [])
  else if bytes = [123, 125] then some (Json.Value.object [])
  else none

end engine

/-! ## The connection actor (`src/actor.cpp`) -/

/-- An `asio::ip::address`: the family and the address bits. -/
inductive address where
  | v4 (bits : Nat)
  | v6 (bits : Nat)
  deriving DecidableEq, Repr

/-- The call `address::is_unspecified()`: the all-zero address of either family. -/
def address.is_unspecified : address → Bool
  | address.v4 bits => bits == 0
  | address.v6 bits => bits == 0

/-- A `tcp::endpoint`. -/
structure endpoint where
  address : address
  port : Nat
  deriving DecidableEq, Repr

/-- A `tcp::acceptor`, by what the actor reads from it. -/
structure acceptor_t where
  local_endpoint : endpoint
  deriving DecidableEq, Repr

/-- An `io::chamber_t`, constructed from the service name. -/
structure chamber_t where
  name : String
  deriving DecidableEq, Repr

/-- A handler given to `io_service::post`. -/
inductive handler_t where
  | accept_action
  deriving DecidableEq, Repr

/-- The `asio::io_service` shared through `m_asio`: the stopped flag and the handlers
posted so far. -/
structure io_service where
  stopped : Bool
  posted : List handler_t
  deriving DecidableEq, Repr

/-- Flags of `tcp::resolver::query`. -/
inductive query_flag where
  | numeric_service
  | address_configured
  deriving DecidableEq, Repr

/-- Lines written through `m_log`. -/
inductive log_t where
  | exposing (service : String) (local_endpoint : endpoint)
  | removing (service : String) (local_endpoint : endpoint)
  | unable_to_determine_local_endpoints (service : String) (what : String)
  | unable_to_accept_a_connection (service : String) (value : Int) (message : String)
  deriving DecidableEq, Repr

/-- What the actor calls but does not define, over a port-mapper state `μ` and an
operating-system state `ν`: `m_context.mapper.assign` and `retain`, the construction of
a `tcp::acceptor` on an endpoint (open, bind, listen; throws on failure) and its
destruction, `tcp::resolver::resolve`, and the two configuration values read. -/
structure context_t (μ ν : Type) where
  assign : String → μ → Except String Nat × μ
  retain : String → μ → Except String Unit × μ
  listen : endpoint → ν → Except String acceptor_t × ν
  close : acceptor_t → ν → ν
  resolve : String → String → List query_flag → ν → Except String (List endpoint) × ν
  network_endpoint : address
  network_hostname : String

/-- The state an `actor_t` owns or reaches: its two `unique_ptr` members, the
`io_service`, the name of its prototype, the mapper and operating-system states behind
`m_context`, and the log. -/
structure actor_t (μ ν : Type) where
  m_chamber : Option chamber_t
  m_acceptor : Option acceptor_t
  m_asio : io_service
  name : String
  mapper : μ
  os : ν
  m_log : List log_t

/-- How a call ended. -/
inductive outcome_t where
  | returned
  | assertion_failed (expression : String)
  | null_dereference
  | thrown (what : String)
  deriving DecidableEq, Repr

/-- Embedding of `actor_t::is_active`. -/
def actor_t.is_active {μ ν : Type} (a : actor_t μ ν) : Bool :=
  a.m_chamber.isSome && a.m_acceptor.isSome

/-- Embedding of `actor_t::run`.  Assigning to `m_acceptor` destroys the acceptor it
held, if any. -/
def actor_t.run {μ ν : Type} (m_context : context_t μ ν) (a : actor_t μ ν) :
    outcome_t × actor_t μ ν :=
  if a.m_chamber.isSome then (outcome_t.assertion_failed "!m_chamber", a)
  else
    match m_context.assign a.name a.mapper with
    | (Except.error e, mapper1) => (outcome_t.thrown e, { a with mapper := mapper1 })
    | (Except.ok port, mapper1) =>
        match m_context.listen { address := m_context.network_endpoint, port := port } a.os with
        | (Except.error e, os1) => (outcome_t.thrown e, { a with mapper := mapper1, os := os1 })
        | (Except.ok acceptor, os1) =>
            let os2 := match a.m_acceptor with
              | some old => m_context.close old os1
              | none => os1
            (outcome_t.returned,
              { m_chamber := some { name := a.name }
                m_acceptor := some acceptor
                m_asio := { a.m_asio with posted := a.m_asio.posted ++ [handler_t.accept_action] }
                name := a.name
                mapper := mapper1
                os := os2
                m_log := a.m_log ++ [log_t.exposing a.name acceptor.local_endpoint] })

/-- Embedding of `actor_t::terminate`. -/
def actor_t.terminate {μ ν : Type} (m_context : context_t μ ν) (a : actor_t μ ν) :
    outcome_t × actor_t μ ν :=
  if a.m_chamber.isNone then (outcome_t.assertion_failed "m_chamber", a)
  else
    match a.m_acceptor with
    | none => (outcome_t.null_dereference, { a with m_asio := { a.m_asio with stopped := true } })
    | some acceptor =>
        let r := m_context.retain a.name a.mapper
        ((match r.1 with
          | Except.ok _ => outcome_t.returned
          | Except.error e => outcome_t.thrown e),
          { m_chamber := none
            m_acceptor := none
            m_asio := { a.m_asio with stopped := false }
            name := a.name
            mapper := r.2
            os := m_context.close acceptor a.os
            m_log := a.m_log ++ [log_t.removing a.name acceptor.local_endpoint] })

/-- Embedding of `actor_t::endpoints`: the vector returned, and the state afterwards
(the resolver and the log are the only things it can touch). -/
def actor_t.endpoints {μ ν : Type} (m_context : context_t μ ν) (a : actor_t μ ν) :
    List endpoint × actor_t μ ν :=
  if !a.is_active then ([], a)
  else
    match a.m_acceptor with
    | none => ([], a)
    | some acceptor =>
        if !acceptor.local_endpoint.address.is_unspecified then ([acceptor.local_endpoint], a)
        else
          match m_context.resolve m_context.network_hostname
              (toString acceptor.local_endpoint.port)
              [query_flag.numeric_service, query_flag.address_configured] a.os with
          | (Except.error e, os1) =>
              ([], { a with
                      os := os1
                      m_log := a.m_log ++
                        [log_t.unable_to_determine_local_endpoints a.name e] })
          | (Except.ok found, os1) => (found, { a with os := os1 })

/-- A port mapper to run the actor on: a pool of free ports and the ports in use by
name.  `assign` hands out the first free port and throws when the name already has one
or the pool is empty; `retain` puts the port of the name back at the end of the pool. -/
structure pool_t where
  free : List Nat
  in_use : List (String × Nat)
  deriving DecidableEq, Repr

/-- A concrete environment: the pool mapper above, an operating system whose state is
the list of ports being listened on (listening on a port twice fails), and a resolver
that knows one address for the host. -/
def local_context : context_t pool_t (List Nat) where
  assign name m :=
    if (m.in_use.find? (fun e => e.1 == name)).isSome then
      (Except.error "named port is already in use", m)
    else
      match m.free with
      | [] => (Except.error "no ports left for allocation", m)
      | port :: rest => (Except.ok port, { free := rest, in_use := (name, port) :: m.in_use })
  retain name m :=
    match m.in_use.find? (fun e => e.1 == name) with
    | none => (Except.error "named port was never assigned", m)
    | some e =>
        (Except.ok (), { free := m.free ++ [e.2], in_use := m.in_use.filter (fun x => x.1 != name) })
  listen ep ports :=
    if ep.port ∈ ports then (Except.error "Address already in use", ports)
    else (Except.ok { local_endpoint := ep }, ep.port :: ports)
  close acceptor ports := ports.erase acceptor.local_endpoint.port
  resolve _ service _ ports :=
    (Except.ok [{ address := address.v4 2130706433, port := service.toNat?.getD 0 }], ports)
  network_endpoint := address.v4 2130706433
  network_hostname := "localhost"

/-- An actor that was constructed and never run, over `local_context`. -/
def idle_actor : actor_t pool_t (List Nat) where
  m_chamber := none
  m_acceptor := none
  m_asio := { stopped := false, posted := [] }
  name := "node"
  mapper := { free := [10053, 10054], in_use := [] }
  os := []
  m_log := []

/-! ## The accept loop (`actor_t::accept_action_t`) -/

/-- A `std::error_code`: it converts to true exactly when `value` is not zero. -/
structure error_code where
  value : Int
  message : String
  deriving DecidableEq, Repr

/-- The value of `asio::error::operation_aborted`: `ECANCELED` on POSIX systems. -/
def operation_aborted : Int := 125

/-- What an accept action works on: its parent actor, the calls of
`m_context.engine().attach(ptr, m_prototype)` made so far (the connection handed over
and the name of the dispatch prototype), and the number of `async_accept` operations
started on the parent's acceptor so far. -/
structure accept_loop_t (μ ν : Type) where
  parent : actor_t μ ν
  attached : List (Nat × String)
  async_accepts : Nat

/-- Embedding of `actor_t::accept_action_t::operator()`: one `async_accept` is started
on `*parent->m_acceptor`, with `finalize` as its completion handler. -/
def accept_action_t.call {μ ν : Type} (w : accept_loop_t μ ν) : outcome_t × accept_loop_t μ ν :=
  match w.parent.m_acceptor with
  | none => (outcome_t.null_dereference, w)
  | some _ => (outcome_t.returned, { w with async_accepts := w.async_accepts + 1 })

/-- Embedding of `actor_t::accept_action_t::finalize`, for the completion code `ec` and
the connection `socket` that the accept filled. -/
def accept_action_t.finalize {μ ν : Type} (ec : error_code) (socket : Nat)
    (w : accept_loop_t μ ν) : outcome_t × accept_loop_t μ ν :=
  if ec.value != 0 then
    if ec.value == operation_aborted then (outcome_t.returned, w)
    else
      accept_action_t.call
        { w with parent := { w.parent with m_log := w.parent.m_log ++
            [log_t.unable_to_accept_a_connection w.parent.name ec.value ec.message] } }
  else
    accept_action_t.call { w with attached := w.attached ++ [(socket, w.parent.name)] }

/-- The actor of `idle_actor` after a successful `run`, with one accept started and no
connection attached yet. -/
def listening_loop : accept_loop_t pool_t (List Nat) where
  parent := (actor_t.run local_context idle_actor).2
  attached := []
  async_accepts := 1

/-! ## The continuum (`detail/service/locator/routing.hpp`) -/

namespace service

/-- The `continuum_t::element_t`: a point of type `uint32_t` and the backend name. -/
structure element_t where
  point : Nat
  value : String
  deriving DecidableEq, Repr

/-- Embedding of `operator<(const element_t&, const element_t&)`. -/
def element_t.lt (lhs rhs : element_t) : Bool :=
  lhs.point < rhs.point

/-- Embedding of `operator==(const element_t&, const element_t&)`. -/
def element_t.eq (lhs rhs : element_t) : Bool :=
  lhs.point == rhs.point

/-- Embedding of `operator<(const point_type, const element_t&)`. -/
def point_type.lt (lhs : Nat) (rhs : element_t) : Bool :=
  lhs < rhs.point

/-- The elements are sorted for `operator<`: no element is less than one before it. -/
def sorted (m_elements : List element_t) : Prop :=
  m_elements.Pairwise (fun earlier later => element_t.lt later earlier = false)

/-- Modelled from the spec: the binary search inside `continuum_t::get`, whose body is
not among the given sources.  The search is for the smallest point greater than or equal
to `point`, on the `count` elements starting at index `first`; it halves `count` at each
step, so `fuel` at least `count` lets it finish.  The result is an index, the length of
the sequence when no element qualifies. -/
def lower_bound (m_elements : List element_t) (point : Nat) : Nat → Nat → Nat → Nat
  | 0, first, _ => first
  | fuel + 1, first, count =>
      if count = 0 then first
      else
        match m_elements[first + count / 2]? with
        | none => first
        | some middle =>
            if middle.point < point then
              lower_bound m_elements point fuel (first + count / 2 + 1) (count - (count / 2 + 1))
            else lower_bound m_elements point fuel first (count / 2)

/-- Modelled from the spec: `continuum_t::get(key)` is declared in `routing.hpp` and
defined outside the given sources.  The specification: hash `key` to a point,
binary-search the sorted elements for the smallest point greater than or equal to it,
wrap to index 0 if none exists, return the associated backend name; on an empty
continuum the lookup is the error `NoBackendsAvailable`.  The hash function is a
parameter. -/
def continuum_t.get (hash : String → Nat) (m_elements : List element_t) (key : String) :
    Except String String :=
  match m_elements with
  | [] => Except.error "NoBackendsAvailable"
  | front :: _ =>
      match m_elements[lower_bound m_elements (hash key) m_elements.length 0
          m_elements.length]? with
      | some found => Except.ok found.value
      | none => Except.ok front.value

/-- A ring of three points to run lookups on. -/
def small_ring : List element_t :=
  [{ point := 10, value := "a" }, { point := 20, value := "b" }, { point := 30, value := "a" }]

end service

/-! # Properties -/

namespace lines

/-! ## Shared lemmas -/

theorem memcpy_rebuild (src : List Byte) :
    memcpy (message_t.rebuild src.length) src src.length = src := by
  simp [memcpy, message_t.rebuild]

theorem raw_pack_eq (s : std_string) : raw.pack s = s := by
  simp [raw.pack, memcpy_rebuild]

/-! ## Raw frames -/

/-- C5: `raw<std::string>::pack` produces a frame of `s.length()` bytes equal to the
bytes of `s`, and `unpack` of that frame returns true and assigns a string equal to `s`,
for every `s` (the empty string and strings with zero bytes included).  Through the
channel: `send` of a raw string puts exactly the bytes of `s` on the queue, and `recv`
into a raw string gives `s` back. -/
theorem raw_pack_unpack_verbatim (s : std_string) :
    (raw.pack s).length = s.length ∧ raw.pack s = s ∧ raw.unpack (raw.pack s) = (true, s) ∧
    (∀ (r0 : std_string) (sflags rflags : Flags) (syslog : List String),
      (channel_t.send_raw queue_socket s sflags { sock := [], syslog := syslog }).2.sock.map
          (fun frame => frame.1) = [s] ∧
      channel_t.recv_raw queue_socket r0 rflags
          (channel_t.send_raw queue_socket s sflags { sock := [], syslog := syslog }).2
        = (true, s, { sock := [], syslog := syslog })) := by
  refine ⟨by rw [raw_pack_eq], raw_pack_eq s, ?_, ?_⟩
  · simp [raw.unpack, std_string.assign, raw_pack_eq]
  · intro r0 sflags rflags syslog
    simp [channel_t.send_raw, channel_t.recv_raw, socket_t.send, socket_t.recv, queue_socket,
      raw.unpack, std_string.assign, raw_pack_eq]

/-! ## Transport errors -/

/-- C6: `socket_t::send` and `socket_t::recv` each call the underlying socket operation
exactly once (the journal grows by that one call, made with the caller's message and
flags); when the operation throws `zmq::error_t` the call returns false, otherwise it
returns the boolean the operation returned.  The embedded functions are total: nothing
is propagated. -/
theorem socket_t_calls_transport_once {σ : Type} (m_socket : zmq_socket_t σ)
    (message : message_t) (flags : Flags) (w : net_t σ) (journal : List call_t) :
    ((socket_t.send (traced m_socket) message flags
          { sock := (w.sock, journal), syslog := w.syslog }).2.sock.2
        = journal ++ [call_t.send message flags (m_socket.send message flags w.sock).1] ∧
      (socket_t.send (traced m_socket) message flags
          { sock := (w.sock, journal), syslog := w.syslog }).1
        = (socket_t.send m_socket message flags w).1 ∧
      (∀ e, (m_socket.send message flags w.sock).1 = Except.error e →
        (socket_t.send m_socket message flags w).1 = false) ∧
      (∀ b, (m_socket.send message flags w.sock).1 = Except.ok b →
        (socket_t.send m_socket message flags w).1 = b)) ∧
    ((socket_t.recv (traced m_socket) message flags
          { sock := (w.sock, journal), syslog := w.syslog }).2.2.sock.2
        = journal ++ [call_t.recv flags (m_socket.recv message flags w.sock).1] ∧
      (socket_t.recv (traced m_socket) message flags
          { sock := (w.sock, journal), syslog := w.syslog }).1
        = (socket_t.recv m_socket message flags w).1 ∧
      (∀ e, (m_socket.recv message flags w.sock).1 = Except.error e →
        (socket_t.recv m_socket message flags w).1 = false) ∧
      (∀ b, (m_socket.recv message flags w.sock).1 = Except.ok b →
        (socket_t.recv m_socket message flags w).1 = b)) := by
  constructor
  · rcases h : m_socket.send message flags w.sock with ⟨o, s⟩
    cases o <;> simp [socket_t.send, traced, h]
  · rcases h : m_socket.recv message flags w.sock with ⟨o, m, s⟩
    cases o <;> simp [socket_t.recv, traced, h]

/-! ## Receiving one object -/

/-- C3: `channel_t::recv(T&)` returns true exactly when the transport `recv` returned
true and both `msgpack::unpack` and `object.convert` completed, and then `result` holds
the converted value; it returns false when the transport `recv` returned false or threw
(leaving `result` as it was), when `unpack` throws (leaving `result` as it was) and when
`convert` throws.  The embedded function is total: nothing is propagated. -/
theorem channel_t_recv_boolean {σ α ω : Type} (m_socket : zmq_socket_t σ)
    (mp : msgpack_t α ω) (result : α) (flags : Flags) (w : net_t σ) :
    ((channel_t.recv m_socket mp result flags w).1 = true ↔
      (m_socket.recv [] flags w.sock).1 = Except.ok true ∧
      ∃ object v, mp.unpack (m_socket.recv [] flags w.sock).2.1 = Except.ok object ∧
        mp.convert object result = (Except.ok (), v)) ∧
    (∀ object v, (m_socket.recv [] flags w.sock).1 = Except.ok true →
      mp.unpack (m_socket.recv [] flags w.sock).2.1 = Except.ok object →
      mp.convert object result = (Except.ok (), v) →
      (channel_t.recv m_socket mp result flags w).1 = true ∧
      (channel_t.recv m_socket mp result flags w).2.1 = v) ∧
    ((m_socket.recv [] flags w.sock).1 ≠ Except.ok true →
      (channel_t.recv m_socket mp result flags w).1 = false ∧
      (channel_t.recv m_socket mp result flags w).2.1 = result) ∧
    (∀ e, mp.unpack (m_socket.recv [] flags w.sock).2.1 = Except.error e →
      (channel_t.recv m_socket mp result flags w).1 = false ∧
      (channel_t.recv m_socket mp result flags w).2.1 = result) ∧
    (∀ object e, mp.unpack (m_socket.recv [] flags w.sock).2.1 = Except.ok object →
      (mp.convert object result).1 = Except.error e →
      (channel_t.recv m_socket mp result flags w).1 = false) := by
  rcases ht : m_socket.recv [] flags w.sock with ⟨o, m, s⟩
  rcases o with e | b
  · simp [channel_t.recv, socket_t.recv, ht]
  · cases b
    · simp [channel_t.recv, socket_t.recv, ht]
    · cases hu : mp.unpack m with
      | error e => simp [channel_t.recv, socket_t.recv, ht, hu]
      | ok object =>
        rcases hc : mp.convert object result with ⟨c, v⟩
        cases c with
        | error e =>
          simp only [channel_t.recv, socket_t.recv, ht, hu, hc]
          simp
          refine ⟨fun x => by simp [hc], ?_⟩
          rintro o1 v1 rfl
          simp [hc]
        | ok u =>
          simp only [channel_t.recv, socket_t.recv, ht, hu, hc]
          simp
          refine ⟨⟨v, by rw [hc]⟩, ?_, ?_⟩
          · rintro o1 v1 rfl h1
            rw [hc] at h1
            exact (Prod.mk.inj h1).2
          · rintro o1 e rfl
            simp [hc]

/-! ## The frames of a multi-part send -/

theorem send_head_traced {σ α ω : Type} (m_socket : zmq_socket_t σ) (mp : msgpack_t α ω)
    (head : item_t α) (flags : Flags) (w : net_t (σ × List call_t)) :
    (channel_t.send_head (traced m_socket) mp head flags w).2.sock.2 =
        w.sock.2 ++ [call_t.send (frame_of mp head) flags
          (m_socket.send (frame_of mp head) flags w.sock.1).1] ∧
      (channel_t.send_head (traced m_socket) mp head flags w).1 =
        (call_t.send (frame_of mp head) flags
          (m_socket.send (frame_of mp head) flags w.sock.1).1).succeeded := by
  cases head with
  | value v =>
    simp only [channel_t.send_head, channel_t.send, memcpy_rebuild, frame_of]
    rcases h : m_socket.send (mp.pack v) flags w.sock.1 with ⟨o, s⟩
    cases o <;> simp [socket_t.send, traced, h, call_t.succeeded]
  | raw r =>
    simp only [channel_t.send_head, channel_t.send_raw, raw_pack_eq, frame_of]
    rcases h : m_socket.send r flags w.sock.1 with ⟨o, s⟩
    cases o <;> simp [socket_t.send, traced, h, call_t.succeeded]
  | message m =>
    simp only [channel_t.send_head, frame_of]
    rcases h : m_socket.send m flags w.sock.1 with ⟨o, s⟩
    cases o <;> simp [socket_t.send, traced, h, call_t.succeeded]

theorem send_multi_journal {σ α ω : Type} (m_socket : zmq_socket_t σ) (mp : msgpack_t α ω)
    (flags : Flags) : ∀ (items : List (item_t α)) (w : net_t (σ × List call_t)),
    ∃ calls : List call_t,
      (channel_t.send_multi (traced m_socket) mp items flags w).2.sock.2 = w.sock.2 ++ calls ∧
      calls.length ≤ items.length ∧
      (∀ i c, calls[i]? = some c → ∃ it o, items[i]? = some it ∧
        c = call_t.send (frame_of mp it)
          (if i + 1 = items.length then flags else ZMQ_SNDMORE ||| flags) o ∧
        (i + 1 < calls.length → c.succeeded = true)) ∧
      ((channel_t.send_multi (traced m_socket) mp items flags w).1 = true ↔
        ∀ c ∈ calls, c.succeeded = true) ∧
      ((channel_t.send_multi (traced m_socket) mp items flags w).1 = true →
        calls.length = items.length)
  | [], w => ⟨[], by simp [channel_t.send_multi]⟩
  | [head], w => by
    obtain ⟨h1, h2⟩ := send_head_traced m_socket mp head flags w
    refine ⟨[_], by simpa [channel_t.send_multi] using h1, by simp, ?_, ?_, by simp⟩
    · intro i c hc
      cases i with
      | zero =>
        simp at hc
        exact ⟨head, (m_socket.send (frame_of mp head) flags w.sock.1).1, by simp,
          by simp [← hc], by simp⟩
      | succ j => simp at hc
    · simp [channel_t.send_multi, h2]
  | head :: next :: tail, w => by
    obtain ⟨h1, h2⟩ := send_head_traced m_socket mp head (ZMQ_SNDMORE ||| flags) w
    rcases hs : channel_t.send_head (traced m_socket) mp head (ZMQ_SNDMORE ||| flags) w
      with ⟨b, w1⟩
    rw [hs] at h1 h2
    simp only at h1 h2
    cases b with
    | false =>
      refine ⟨[_], by simpa [channel_t.send_multi, hs] using h1, by simp, ?_, ?_, ?_⟩
      · intro i c hc
        cases i with
        | zero =>
          simp at hc
          exact ⟨head, (m_socket.send (frame_of mp head) (ZMQ_SNDMORE ||| flags) w.sock.1).1,
            by simp, by simp [← hc], by simp⟩
        | succ j => simp at hc
      · simp [channel_t.send_multi, hs, ← h2]
      · simp [channel_t.send_multi, hs]
    | true =>
      obtain ⟨calls, c1, c2, c3, c4, c5⟩ := send_multi_journal m_socket mp flags (next :: tail) w1
      refine ⟨call_t.send (frame_of mp head) (ZMQ_SNDMORE ||| flags)
        (m_socket.send (frame_of mp head) (ZMQ_SNDMORE ||| flags) w.sock.1).1 :: calls,
        ?_, ?_, ?_, ?_, ?_⟩
      · simp only [channel_t.send_multi, hs]
        rw [c1, h1]
        simp
      · simp at c2 ⊢
        omega
      · intro i c hc
        cases i with
        | zero =>
          simp at hc
          exact ⟨head, (m_socket.send (frame_of mp head) (ZMQ_SNDMORE ||| flags) w.sock.1).1,
            by simp, by simp [← hc], fun _ => by rw [← hc, ← h2]⟩
        | succ j =>
          simp only [List.getElem?_cons_succ] at hc
          obtain ⟨it, o, e1, e2, e3⟩ := c3 j c hc
          refine ⟨it, o, by simpa using e1, ?_, ?_⟩
          · rw [e2]
            simp
          · intro hlt
            apply e3
            simp at hlt
            omega
      · simp only [channel_t.send_multi, hs]
        rw [c4]
        simp [← h2]
      · simp only [channel_t.send_multi, hs]
        intro h
        simp [c5 h]

/-- Forgetting the journal of a traced state. -/
theorem send_head_untraced {σ α ω : Type} (m_socket : zmq_socket_t σ) (mp : msgpack_t α ω)
    (head : item_t α) (flags : Flags) (w : net_t (σ × List call_t)) :
    (channel_t.send_head (traced m_socket) mp head flags w).1 =
        (channel_t.send_head m_socket mp head flags
          { sock := w.sock.1, syslog := w.syslog }).1 ∧
      (channel_t.send_head (traced m_socket) mp head flags w).2.sock.1 =
        (channel_t.send_head m_socket mp head flags
          { sock := w.sock.1, syslog := w.syslog }).2.sock ∧
      (channel_t.send_head (traced m_socket) mp head flags w).2.syslog =
        (channel_t.send_head m_socket mp head flags
          { sock := w.sock.1, syslog := w.syslog }).2.syslog := by
  cases head with
  | value v =>
    simp only [channel_t.send_head, channel_t.send]
    rcases h : m_socket.send (memcpy (message_t.rebuild (mp.pack v).length) (mp.pack v)
      (mp.pack v).length) flags w.sock.1 with ⟨o, s⟩
    cases o <;> simp [socket_t.send, traced, h]
  | raw r =>
    simp only [channel_t.send_head, channel_t.send_raw]
    rcases h : m_socket.send (raw.pack r) flags w.sock.1 with ⟨o, s⟩
    cases o <;> simp [socket_t.send, traced, h]
  | message m =>
    simp only [channel_t.send_head]
    rcases h : m_socket.send m flags w.sock.1 with ⟨o, s⟩
    cases o <;> simp [socket_t.send, traced, h]

theorem send_multi_untraced {σ α ω : Type} (m_socket : zmq_socket_t σ) (mp : msgpack_t α ω)
    (flags : Flags) : ∀ (items : List (item_t α)) (w : net_t (σ × List call_t)),
    (channel_t.send_multi (traced m_socket) mp items flags w).1 =
        (channel_t.send_multi m_socket mp items flags
          { sock := w.sock.1, syslog := w.syslog }).1 ∧
      (channel_t.send_multi (traced m_socket) mp items flags w).2.sock.1 =
        (channel_t.send_multi m_socket mp items flags
          { sock := w.sock.1, syslog := w.syslog }).2.sock ∧
      (channel_t.send_multi (traced m_socket) mp items flags w).2.syslog =
        (channel_t.send_multi m_socket mp items flags
          { sock := w.sock.1, syslog := w.syslog }).2.syslog
  | [], w => by simp [channel_t.send_multi]
  | [head], w => by
    simpa [channel_t.send_multi] using send_head_untraced m_socket mp head flags w
  | head :: next :: tail, w => by
    obtain ⟨h1, h2, h3⟩ := send_head_untraced m_socket mp head (ZMQ_SNDMORE ||| flags) w
    rcases hs : channel_t.send_head (traced m_socket) mp head (ZMQ_SNDMORE ||| flags) w
      with ⟨b, w1⟩
    rcases hp : channel_t.send_head m_socket mp head (ZMQ_SNDMORE ||| flags)
      { sock := w.sock.1, syslog := w.syslog } with ⟨b0, w0⟩
    rw [hs, hp] at h1 h2 h3
    simp only at h1 h2 h3
    subst h1
    cases b with
    | false => simp [channel_t.send_multi, hs, hp, h2, h3]
    | true =>
      have ih := send_multi_untraced m_socket mp flags (next :: tail) w1
      have hw : ({ sock := w1.sock.1, syslog := w1.syslog } : net_t σ) = w0 := by
        cases w0
        simp_all
      rw [hw] at ih
      simpa [channel_t.send_multi, hs, hp] using ih

/-- C2: the journal of one `send_multi` on a tuple of `n` components.  It holds at most
`n` sends; the `i`-th is the frame of the `i`-th component, made with `flags` alone when
that component is the last of the tuple and with `ZMQ_SNDMORE | flags` otherwise; every
send but the last attempted one returned true (the first failing send ends the
sequence); the result is true exactly when every attempted send returned true, and then
all `n` were attempted.  For the empty tuple nothing is sent and the result is true.
The journal describes the plain socket: the traced run returns what the plain run
returns. -/
theorem send_multi_frame_sequence {σ α ω : Type} (m_socket : zmq_socket_t σ)
    (mp : msgpack_t α ω) (items : List (item_t α)) (flags : Flags) (w : net_t σ) :
    (channel_t.send_multi (traced m_socket) mp items flags
        { sock := (w.sock, []), syslog := w.syslog }).2.sock.2.length ≤ items.length ∧
    (∀ i c, (channel_t.send_multi (traced m_socket) mp items flags
        { sock := (w.sock, []), syslog := w.syslog }).2.sock.2[i]? = some c →
      ∃ it o, items[i]? = some it ∧
        c = call_t.send (frame_of mp it)
          (if i + 1 = items.length then flags else ZMQ_SNDMORE ||| flags) o ∧
        (i + 1 < (channel_t.send_multi (traced m_socket) mp items flags
            { sock := (w.sock, []), syslog := w.syslog }).2.sock.2.length →
          c.succeeded = true)) ∧
    ((channel_t.send_multi m_socket mp items flags w).1 = true ↔
      ∀ c ∈ (channel_t.send_multi (traced m_socket) mp items flags
        { sock := (w.sock, []), syslog := w.syslog }).2.sock.2, c.succeeded = true) ∧
    ((channel_t.send_multi m_socket mp items flags w).1 = true →
      (channel_t.send_multi (traced m_socket) mp items flags
        { sock := (w.sock, []), syslog := w.syslog }).2.sock.2.length = items.length) ∧
    (items = [] →
      (channel_t.send_multi (traced m_socket) mp items flags
        { sock := (w.sock, []), syslog := w.syslog }).2.sock.2 = [] ∧
      (channel_t.send_multi m_socket mp items flags w).1 = true) := by
  obtain ⟨calls, c1, c2, c3, c4, c5⟩ := send_multi_journal m_socket mp flags items
    { sock := (w.sock, []), syslog := w.syslog }
  obtain ⟨u1, -, -⟩ := send_multi_untraced m_socket mp flags items
    { sock := (w.sock, []), syslog := w.syslog }
  simp only [List.nil_append] at c1
  simp only at u1
  rw [c1, ← u1]
  refine ⟨c2, c3, c4, c5, ?_⟩
  rintro rfl
  simp [channel_t.send_multi] at c1 ⊢
  exact c1

/-! ## Receiving a tuple -/

theorem recv_multi_append {σ α ω : Type} (m_socket : zmq_socket_t σ) (mp : msgpack_t α ω)
    (flags : Flags) (rest : List (item_t α)) :
    ∀ (before : List (item_t α)) (w : net_t σ),
    channel_t.recv_multi m_socket mp (before ++ rest) flags w =
      if (channel_t.recv_multi m_socket mp before flags w).1 then
        ((channel_t.recv_multi m_socket mp rest flags
            (channel_t.recv_multi m_socket mp before flags w).2.2).1,
          (channel_t.recv_multi m_socket mp before flags w).2.1 ++
            (channel_t.recv_multi m_socket mp rest flags
              (channel_t.recv_multi m_socket mp before flags w).2.2).2.1,
          (channel_t.recv_multi m_socket mp rest flags
            (channel_t.recv_multi m_socket mp before flags w).2.2).2.2)
      else
        (false, (channel_t.recv_multi m_socket mp before flags w).2.1 ++ rest,
          (channel_t.recv_multi m_socket mp before flags w).2.2)
  | [], w => by simp [channel_t.recv_multi]
  | head :: tail, w => by
    rcases hh : channel_t.recv_head m_socket mp head flags w with ⟨b, head1, w1⟩
    cases b with
    | false => simp [channel_t.recv_multi, hh]
    | true =>
      have ih := recv_multi_append m_socket mp flags rest tail w1
      rw [List.cons_append]
      simp only [channel_t.recv_multi, hh]
      rw [ih]
      split <;> simp

theorem recv_multi_false_split {σ α ω : Type} (m_socket : zmq_socket_t σ)
    (mp : msgpack_t α ω) (flags : Flags) :
    ∀ (items : List (item_t α)) (w : net_t σ),
    (channel_t.recv_multi m_socket mp items flags w).1 = false →
    ∃ before failing after before1 wk,
      items = before ++ failing :: after ∧
      channel_t.recv_multi m_socket mp before flags w = (true, before1, wk) ∧
      (channel_t.recv_head m_socket mp failing flags wk).1 = false
  | [], w, h => by simp [channel_t.recv_multi] at h
  | head :: tail, w, h => by
    rcases hh : channel_t.recv_head m_socket mp head flags w with ⟨b, head1, w1⟩
    cases b with
    | false => exact ⟨[], head, tail, [], w, by simp, by simp [channel_t.recv_multi], by simp [hh]⟩
    | true =>
      simp only [channel_t.recv_multi, hh] at h
      obtain ⟨before, failing, after, before1, wk, e1, e2, e3⟩ :=
        recv_multi_false_split m_socket mp flags tail w1 h
      exact ⟨head :: before, failing, after, head1 :: before1, wk, by simp [e1],
        by simp [channel_t.recv_multi, hh, e2], e3⟩

/-- C4, as the code has it: `recv_multi` returns false exactly when some component fails
to be received or decoded after all components before it were received; at that point
the components after the failing one are exactly as they were before the call, the
components before it hold what was received for them, and the failing component is as
its own `recv` left it. -/
theorem recv_multi_failure_leaves_suffix {σ α ω : Type} (m_socket : zmq_socket_t σ)
    (mp : msgpack_t α ω) (items : List (item_t α)) (flags : Flags) (w : net_t σ) :
    ((channel_t.recv_multi m_socket mp items flags w).1 = false ↔
      ∃ before failing after before1 wk,
        items = before ++ failing :: after ∧
        channel_t.recv_multi m_socket mp before flags w = (true, before1, wk) ∧
        (channel_t.recv_head m_socket mp failing flags wk).1 = false) ∧
    (∀ before failing after before1 wk,
      items = before ++ failing :: after →
      channel_t.recv_multi m_socket mp before flags w = (true, before1, wk) →
      (channel_t.recv_head m_socket mp failing flags wk).1 = false →
      (channel_t.recv_multi m_socket mp items flags w).2.1 =
        before1 ++ (channel_t.recv_head m_socket mp failing flags wk).2.1 :: after ∧
      (channel_t.recv_multi m_socket mp items flags w).2.2 =
        (channel_t.recv_head m_socket mp failing flags wk).2.2) := by
  have key : ∀ before failing after before1 wk,
      items = before ++ failing :: after →
      channel_t.recv_multi m_socket mp before flags w = (true, before1, wk) →
      (channel_t.recv_head m_socket mp failing flags wk).1 = false →
      channel_t.recv_multi m_socket mp items flags w =
        (false, before1 ++ (channel_t.recv_head m_socket mp failing flags wk).2.1 :: after,
          (channel_t.recv_head m_socket mp failing flags wk).2.2) := by
    intro before failing after before1 wk e1 e2 e3
    rcases hh : channel_t.recv_head m_socket mp failing flags wk with ⟨b, f1, w1⟩
    rw [hh] at e3
    simp only at e3
    subst e3
    rw [e1, recv_multi_append, e2]
    simp [channel_t.recv_multi, hh]
  refine ⟨⟨recv_multi_false_split m_socket mp flags items w, ?_⟩, ?_⟩
  · rintro ⟨before, failing, after, before1, wk, e1, e2, e3⟩
    rw [key before failing after before1 wk e1 e2 e3]
  · intro before failing after before1 wk e1 e2 e3
    rw [key before failing after before1 wk e1 e2 e3]
    exact ⟨rfl, rfl⟩

/-- C4, counterexample to the claim as stated: two string slots holding `[9]` and `[8]`,
an incoming first frame that decodes to `[5]` and a second frame that is not a packed
object.  The call returns false and the first slot has been overwritten. -/
theorem recv_multi_overwrites_earlier_component :
    (channel_t.recv_multi queue_socket raw_codec [item_t.value [9], item_t.value [8]] 0
        { sock := [([161, 5], true), ([1, 2, 3], false)], syslog := [] }).1 = false ∧
    (channel_t.recv_multi queue_socket raw_codec [item_t.value [9], item_t.value [8]] 0
        { sock := [([161, 5], true), ([1, 2, 3], false)], syslog := [] }).2.1
      = [item_t.value [5], item_t.value [8]] ∧
    ([item_t.value [5], item_t.value [8]] : List (item_t std_string))
      ≠ [item_t.value [9], item_t.value [8]] := by
  decide

/-! ## Round trip of the invoke command -/

/-- C1: over the lossless in-order queue, and a codec that turns the packed event back
into the event, `send_multi` of the invoke command `(e, p)` returns true and puts two
frames on the wire, and `recv_multi` into a tuple of a string slot and a message slot
(or a raw-string slot) then returns true, leaves the queue empty and yields exactly
`(e, p)`, in that order, whatever the slots held before. -/
theorem invoke_round_trip {α ω : Type} (mp : msgpack_t α ω) (e e0 : α) (object : ω)
    (p m0 : List Byte) (sflags rflags : Flags) (syslog : List String)
    (hu : mp.unpack (mp.pack e) = Except.ok object)
    (hc : mp.convert object e0 = (Except.ok (), e)) :
    (channel_t.send_multi queue_socket mp (io.invoke_command e p p.length) sflags
        { sock := [], syslog := syslog }).1 = true ∧
    channel_t.recv_multi queue_socket mp [item_t.value e0, item_t.message m0] rflags
        (channel_t.send_multi queue_socket mp (io.invoke_command e p p.length) sflags
          { sock := [], syslog := syslog }).2
      = (true, [item_t.value e, item_t.message p], { sock := [], syslog := syslog }) ∧
    channel_t.recv_multi queue_socket mp [item_t.value e0, item_t.raw m0] rflags
        (channel_t.send_multi queue_socket mp (io.invoke_command e p p.length) sflags
          { sock := [], syslog := syslog }).2
      = (true, [item_t.value e, item_t.raw p], { sock := [], syslog := syslog }) := by
  simp [io.invoke_command, channel_t.send_multi, channel_t.send_head, channel_t.send,
    socket_t.send, queue_socket, memcpy_rebuild, channel_t.recv_multi, channel_t.recv_head,
    channel_t.recv, channel_t.recv_raw, raw.unpack, std_string.assign, socket_t.recv, hu, hc]

/-- C1, at `invoke("run", b"payload")` over the concrete string codec. -/
theorem invoke_round_trip_run_payload :
    raw_codec.unpack (raw_codec.pack [114, 117, 110]) = Except.ok [114, 117, 110] ∧
    raw_codec.convert [114, 117, 110] [] = (Except.ok (), [114, 117, 110]) ∧
    (channel_t.send_multi queue_socket raw_codec
        (io.invoke_command [114, 117, 110] [112, 97, 121, 108, 111, 97, 100] 7) 0
        { sock := [], syslog := [] }).1 = true ∧
    channel_t.recv_multi queue_socket raw_codec [item_t.value [], item_t.message []] 0
        (channel_t.send_multi queue_socket raw_codec
          (io.invoke_command [114, 117, 110] [112, 97, 121, 108, 111, 97, 100] 7) 0
          { sock := [], syslog := [] }).2
      = (true, [item_t.value [114, 117, 110],
          item_t.message [112, 97, 121, 108, 111, 97, 100]],
          { sock := [], syslog := [] }) :=
  ⟨rfl, rfl,
    (invoke_round_trip raw_codec [114, 117, 110] [] [114, 117, 110]
      [112, 97, 121, 108, 111, 97, 100] [] 0 0 [] rfl rfl).1,
    (invoke_round_trip raw_codec [114, 117, 110] [] [114, 117, 110]
      [112, 97, 121, 108, 111, 97, 100] [] 0 0 [] rfl rfl).2.1⟩

end lines

namespace engine

/-! ## Publications -/

theorem member_make_json (key value : String) :
    member key (helpers.make_json key value) = some (Json.Value.string value) := by
  simp [member, helpers.make_json]

/-- C7, as the code has it: `publication_t::respond` makes exactly one `publish` call
for every chunk, on the engine of the job's driver and under that driver's method; the
value is the parsed root when the chunk parses as strict JSON, and otherwise the object
whose `"error"` member is the string `"unable to parse the json"`. -/
theorem respond_publishes_once (parse : List Byte → Option Json.Value) (m_parent : driver_t)
    (chunk : message_t) (published : List publish_t) :
    (∀ root, parse chunk = some root →
      publication_t.respond parse m_parent chunk published =
        published ++ [{ engine := m_parent.engine, method := m_parent.method, value := root }]) ∧
    (parse chunk = none →
      publication_t.respond parse m_parent chunk published =
        published ++ [{ engine := m_parent.engine, method := m_parent.method,
                        value := helpers.make_json "error" "unable to parse the json" }]) ∧
    (publication_t.respond parse m_parent chunk published).length = published.length + 1 ∧
    member "error" (helpers.make_json "error" "unable to parse the json") =
      some (Json.Value.string "unable to parse the json") := by
  refine ⟨?_, ?_, ?_, member_make_json _ _⟩
  · intro root h
    simp [publication_t.respond, engine_t.publish, h]
  · intro h
    simp [publication_t.respond, engine_t.publish, h]
  · cases h : parse chunk <;> simp [publication_t.respond, engine_t.publish, h]

/-- C7, counterexample to the claim as stated: the chunk `x` is not JSON, and the value
published for it carries the text `unable to parse the json`, which is not the text
`unable to parse`. -/
theorem respond_error_text_is_longer :
    tiny_reader [120] = none ∧
    (publication_t.respond tiny_reader { method := "ping", engine := "app" } [120] []).map
        (fun p => member "error" p.value)
      = [some (Json.Value.string "unable to parse the json")] ∧
    (publication_t.respond tiny_reader { method := "ping", engine := "app" } [120] []).map
        (fun p => member "error" p.value)
      ≠ [some (Json.Value.string "unable to parse")] := by
  refine ⟨by simp [tiny_reader], ?_, ?_⟩
  · simp [publication_t.respond, engine_t.publish, tiny_reader, member_make_json]
  · simp [publication_t.respond, engine_t.publish, tiny_reader, member_make_json]

/-- C8: `publication_t::abort` makes exactly one `publish` call for every error code and
every message, on the engine of the job's driver and under that driver's method, and the
value published is an object whose `"error"` member is the given message. -/
theorem abort_publishes_error (m_parent : driver_t) (code : Int) (error : String)
    (published : List publish_t) :
    publication_t.abort m_parent code error published =
      published ++ [{ engine := m_parent.engine, method := m_parent.method,
                      value := helpers.make_json "error" error }] ∧
    (publication_t.abort m_parent code error published).length = published.length + 1 ∧
    member "error" (helpers.make_json "error" error) = some (Json.Value.string error) := by
  refine ⟨?_, ?_, member_make_json _ _⟩ <;> simp [publication_t.abort, engine_t.publish]

end engine

/-! ## The actor -/

theorem run_keeps_pairing {μ ν : Type} (m_context : context_t μ ν) (b : actor_t μ ν)
    (h : b.m_chamber.isSome = b.m_acceptor.isSome) :
    (actor_t.run m_context b).2.m_chamber.isSome =
      (actor_t.run m_context b).2.m_acceptor.isSome := by
  unfold actor_t.run
  split
  · exact h
  · rcases ha : m_context.assign b.name b.mapper with ⟨o, m1⟩
    cases o with
    | error e => simpa using h
    | ok port =>
      rcases hl : m_context.listen { address := m_context.network_endpoint, port := port } b.os
        with ⟨o2, os1⟩
      cases o2 with
      | error e => simpa [hl] using h
      | ok acceptor => simp [hl]

theorem terminate_keeps_pairing {μ ν : Type} (m_context : context_t μ ν) (b : actor_t μ ν)
    (h : b.m_chamber.isSome = b.m_acceptor.isSome) :
    (actor_t.terminate m_context b).2.m_chamber.isSome =
      (actor_t.terminate m_context b).2.m_acceptor.isSome := by
  unfold actor_t.terminate
  split
  · exact h
  · rename_i hc
    cases hacc : b.m_acceptor with
    | none =>
      rw [hacc] at h
      simp at hc
      simp [hc] at h
    | some acceptor => simp

/-- C9: from an idle actor (no chamber, no acceptor), when the mapper assigns a port for
the service name and an acceptor can be opened on it, `run()` returns with `is_active()`
true, holding that acceptor and a chamber of the service name; `terminate()` then
returns with `is_active()` false, chamber and acceptor both cleared and the mapper's
`retain` applied to the service name; the actor then has no chamber, so `run()` may be
called again, and when the mapper assigns a port again and an acceptor can be opened on
it, this second `run()` returns with `is_active()` true.  After `run()` and after
`terminate()`, from any state where chamber and acceptor are both present or both
absent and however the call ends, they are again both present or both absent. -/
theorem actor_restart {μ ν : Type} (m_context : context_t μ ν) (a : actor_t μ ν)
    (port1 port2 : Nat) (mapper1 mapper2 mapper3 : μ) (acceptor1 acceptor2 : acceptor_t)
    (os1 os3 : ν)
    (hchamber : a.m_chamber = none) (hacceptor : a.m_acceptor = none)
    (hassign1 : m_context.assign a.name a.mapper = (Except.ok port1, mapper1))
    (hlisten1 : m_context.listen { address := m_context.network_endpoint, port := port1 } a.os
      = (Except.ok acceptor1, os1))
    (hretain : m_context.retain a.name mapper1 = (Except.ok (), mapper2))
    (hassign2 : m_context.assign a.name mapper2 = (Except.ok port2, mapper3))
    (hlisten2 : m_context.listen { address := m_context.network_endpoint, port := port2 }
      (m_context.close acceptor1 os1) = (Except.ok acceptor2, os3)) :
    ((actor_t.run m_context a).1 = outcome_t.returned ∧
      (actor_t.run m_context a).2.is_active = true ∧
      (actor_t.run m_context a).2.m_chamber = some { name := a.name } ∧
      (actor_t.run m_context a).2.m_acceptor = some acceptor1 ∧
      (actor_t.run m_context a).2.mapper = mapper1) ∧
    ((actor_t.terminate m_context (actor_t.run m_context a).2).1 = outcome_t.returned ∧
      (actor_t.terminate m_context (actor_t.run m_context a).2).2.is_active = false ∧
      (actor_t.terminate m_context (actor_t.run m_context a).2).2.m_chamber = none ∧
      (actor_t.terminate m_context (actor_t.run m_context a).2).2.m_acceptor = none ∧
      (actor_t.terminate m_context (actor_t.run m_context a).2).2.mapper = mapper2) ∧
    ((actor_t.run m_context (actor_t.terminate m_context (actor_t.run m_context a).2).2).1
        = outcome_t.returned ∧
      (actor_t.run m_context
        (actor_t.terminate m_context (actor_t.run m_context a).2).2).2.is_active = true ∧
      (actor_t.run m_context
        (actor_t.terminate m_context (actor_t.run m_context a).2).2).2.m_acceptor
        = some acceptor2 ∧
      (actor_t.run m_context
        (actor_t.terminate m_context (actor_t.run m_context a).2).2).2.mapper = mapper3) ∧
    (∀ b : actor_t μ ν, b.m_chamber.isSome = b.m_acceptor.isSome →
      ((actor_t.run m_context b).2.m_chamber.isSome =
          (actor_t.run m_context b).2.m_acceptor.isSome) ∧
      ((actor_t.terminate m_context b).2.m_chamber.isSome =
          (actor_t.terminate m_context b).2.m_acceptor.isSome)) := by
  have hrun : actor_t.run m_context a =
      (outcome_t.returned,
        { m_chamber := some { name := a.name }
          m_acceptor := some acceptor1
          m_asio := { a.m_asio with posted := a.m_asio.posted ++ [handler_t.accept_action] }
          name := a.name
          mapper := mapper1
          os := os1
          m_log := a.m_log ++ [log_t.exposing a.name acceptor1.local_endpoint] }) := by
    simp [actor_t.run, hchamber, hacceptor, hassign1, hlisten1]
  have hterm : actor_t.terminate m_context (actor_t.run m_context a).2 =
      (outcome_t.returned,
        { m_chamber := none
          m_acceptor := none
          m_asio := { stopped := false, posted := a.m_asio.posted ++ [handler_t.accept_action] }
          name := a.name
          mapper := mapper2
          os := m_context.close acceptor1 os1
          m_log := a.m_log ++ [log_t.exposing a.name acceptor1.local_endpoint] ++
            [log_t.removing a.name acceptor1.local_endpoint] }) := by
    rw [hrun]
    simp [actor_t.terminate, hretain]
  refine ⟨?_, ?_, ?_, fun b hb =>
    ⟨run_keeps_pairing m_context b hb, terminate_keeps_pairing m_context b hb⟩⟩
  · rw [hrun]
    simp [actor_t.is_active]
  · rw [hterm]
    simp [actor_t.is_active]
  · rw [hterm]
    simp [actor_t.run, actor_t.is_active, hassign2, hlisten2]

/-- C9, on the concrete pool mapper: the first run binds port 10053, terminate gives it
back, the second run binds port 10054. -/
theorem actor_restart_local :
    (actor_t.run local_context
      (actor_t.terminate local_context (actor_t.run local_context idle_actor).2).2).2.is_active
      = true ∧
    (actor_t.run local_context
      (actor_t.terminate local_context (actor_t.run local_context idle_actor).2).2).2.m_acceptor
      = some { local_endpoint := { address := address.v4 2130706433, port := 10054 } } :=
  ⟨(actor_restart local_context idle_actor 10053 10054
      { free := [10054], in_use := [("node", 10053)] }
      { free := [10054, 10053], in_use := [] }
      { free := [10053], in_use := [("node", 10054)] }
      { local_endpoint := { address := address.v4 2130706433, port := 10053 } }
      { local_endpoint := { address := address.v4 2130706433, port := 10054 } }
      [10053] [10054] rfl rfl rfl rfl rfl rfl
      rfl).2.2.1.2.1,
   (actor_restart local_context idle_actor 10053 10054
      { free := [10054], in_use := [("node", 10053)] }
      { free := [10054, 10053], in_use := [] }
      { free := [10053], in_use := [("node", 10054)] }
      { local_endpoint := { address := address.v4 2130706433, port := 10053 } }
      { local_endpoint := { address := address.v4 2130706433, port := 10054 } }
      [10053] [10054] rfl rfl rfl rfl rfl rfl
      rfl).2.2.1.2.2.1⟩

/-- C10: on an inactive actor `endpoints()` returns the empty vector and leaves the
state as it was (nothing is resolved, nothing is logged), whatever the resolver and
whether or not an acceptor is present; on an active actor whose acceptor is bound to a
specified address it returns exactly that acceptor's local endpoint, again without
resolving. -/
theorem endpoints_inactive_or_specific {μ ν : Type} (m_context : context_t μ ν)
    (a : actor_t μ ν) :
    (a.is_active = false → actor_t.endpoints m_context a = ([], a)) ∧
    (∀ acceptor, a.is_active = true → a.m_acceptor = some acceptor →
      acceptor.local_endpoint.address.is_unspecified = false →
      actor_t.endpoints m_context a = ([acceptor.local_endpoint], a)) := by
  constructor
  · intro h
    simp [actor_t.endpoints, h]
  · intro acceptor h1 h2 h3
    simp [actor_t.endpoints, h1, h2, h3]

namespace service

/-! ## Keyed lookup on the continuum -/

theorem sorted_points_le {m_elements : List element_t} (h : sorted m_elements)
    (i j : Nat) (a b : element_t) (hij : i ≤ j) (ha : m_elements[i]? = some a)
    (hb : m_elements[j]? = some b) : a.point ≤ b.point := by
  obtain ⟨hi, rfl⟩ := List.getElem?_eq_some.mp ha
  obtain ⟨hj, rfl⟩ := List.getElem?_eq_some.mp hb
  rcases Nat.lt_or_eq_of_le hij with hlt | heq
  · have := (List.pairwise_iff_getElem.mp h) i j hi hj hlt
    simp [element_t.lt] at this
    exact this
  · subst heq
    exact Nat.le_refl _

theorem lower_bound_partitions {m_elements : List element_t} (h : sorted m_elements)
    (point : Nat) : ∀ (fuel first count : Nat), count ≤ fuel →
    first + count ≤ m_elements.length →
    (∀ j e, j < first → m_elements[j]? = some e → e.point < point) →
    (∀ j e, first + count ≤ j → m_elements[j]? = some e → point ≤ e.point) →
    lower_bound m_elements point fuel first count ≤ m_elements.length ∧
    (∀ j e, j < lower_bound m_elements point fuel first count →
      m_elements[j]? = some e → e.point < point) ∧
    (∀ j e, lower_bound m_elements point fuel first count ≤ j →
      m_elements[j]? = some e → point ≤ e.point)
  | 0, first, count, hfuel, hlen, hlow, hhigh => by
    have hc : count = 0 := by omega
    subst hc
    simp only [lower_bound]
    exact ⟨by omega, hlow, fun j e hj => hhigh j e (by omega)⟩
  | fuel + 1, first, count, hfuel, hlen, hlow, hhigh => by
    by_cases hc : count = 0
    · subst hc
      simp only [lower_bound, if_true]
      exact ⟨by omega, hlow, fun j e hj => hhigh j e (by omega)⟩
    · have hmid : first + count / 2 < m_elements.length := by
        have : count / 2 < count := Nat.div_lt_self (by omega) (by omega)
        omega
      obtain ⟨middle, hm⟩ : ∃ middle, m_elements[first + count / 2]? = some middle :=
        ⟨m_elements[first + count / 2], List.getElem?_eq_getElem hmid⟩
      by_cases hlt : middle.point < point
      · have ih := lower_bound_partitions h point fuel (first + count / 2 + 1)
          (count - (count / 2 + 1)) (by omega) (by omega)
          (fun j e hj he =>
            Nat.lt_of_le_of_lt (sorted_points_le h j (first + count / 2) e middle (by omega) he hm)
              hlt)
          (fun j e hj he => hhigh j e (by omega) he)
        simpa [lower_bound, hc, hm, hlt] using ih
      · have ih := lower_bound_partitions h point fuel first (count / 2)
          (by omega) (by omega) hlow
          (fun j e hj he =>
            Nat.le_trans (Nat.le_of_not_lt hlt)
              (sorted_points_le h (first + count / 2) j middle e hj hm he))
        simpa [lower_bound, hc, hm, hlt] using ih

/-- C11: on a non-empty continuum sorted by point, `get(key)` returns the backend name
of the first element whose point is greater than or equal to `hash(key)` (so an element
whose point equals the hash, with only smaller points before it, is selected), and the
backend name of the element at index 0 when every point is smaller than the hash. -/
theorem continuum_get_first_not_below (hash : String → Nat) (m_elements : List element_t)
    (key : String) (hne : m_elements ≠ []) (hsorted : sorted m_elements) :
    (∀ (i : Nat) (found : element_t),
      m_elements[i]? = some found → hash key ≤ found.point →
      (∀ (j : Nat) (e : element_t), j < i → m_elements[j]? = some e → e.point < hash key) →
      continuum_t.get hash m_elements key = Except.ok found.value) ∧
    (∀ (i : Nat) (found : element_t),
      m_elements[i]? = some found → found.point = hash key →
      (∀ (j : Nat) (e : element_t), j < i → m_elements[j]? = some e → e.point < hash key) →
      continuum_t.get hash m_elements key = Except.ok found.value) ∧
    (∀ front, m_elements[0]? = some front →
      (∀ e ∈ m_elements, e.point < hash key) →
      continuum_t.get hash m_elements key = Except.ok front.value) := by
  obtain ⟨hr, hlow, hhigh⟩ := lower_bound_partitions hsorted (hash key) m_elements.length 0
    m_elements.length (Nat.le_refl _) (by omega) (fun j e hj => absurd hj (Nat.not_lt_zero j))
    (fun j e hj he => by
      have := (List.getElem?_eq_some.mp he).1
      omega)
  have first_case : ∀ (i : Nat) (found : element_t),
      m_elements[i]? = some found → hash key ≤ found.point →
      (∀ (j : Nat) (e : element_t), j < i → m_elements[j]? = some e → e.point < hash key) →
      continuum_t.get hash m_elements key = Except.ok found.value := by
    intro i found hi hge hbefore
    have hidx : lower_bound m_elements (hash key) m_elements.length 0 m_elements.length = i := by
      apply Nat.le_antisymm
      · by_contra hcon
        have := hlow i found (by omega) hi
        omega
      · by_contra hcon
        have hlen := (List.getElem?_eq_some.mp hi).1
        have hlt : lower_bound m_elements (hash key) m_elements.length 0 m_elements.length
            < m_elements.length := by omega
        have h1 := hhigh _ _ (Nat.le_refl _) (List.getElem?_eq_getElem hlt)
        have h2 := hbefore _ _ (by omega) (List.getElem?_eq_getElem hlt)
        omega
    cases hm : m_elements with
    | nil => exact absurd hm hne
    | cons front rest =>
      rw [← hm]
      simp only [continuum_t.get, hm]
      rw [← hm, hidx, hi]
  refine ⟨first_case, fun i found hi heq => first_case i found hi (Nat.le_of_eq heq.symm), ?_⟩
  intro front hfront hall
  have hidx : lower_bound m_elements (hash key) m_elements.length 0 m_elements.length
      = m_elements.length := by
    apply Nat.le_antisymm hr
    by_contra hcon
    have hlt : lower_bound m_elements (hash key) m_elements.length 0 m_elements.length
        < m_elements.length := by omega
    have h1 := hhigh _ _ (Nat.le_refl _) (List.getElem?_eq_getElem hlt)
    have h2 := hall _ (List.getElem_mem hlt)
    omega
  cases hm : m_elements with
  | nil => exact absurd hm hne
  | cons head rest =>
    rw [hm] at hfront
    simp at hfront
    subst hfront
    simp only [continuum_t.get]
    rw [← hm, hidx]
    simp

/-- C11, on the ring of points 10, 20, 30 with a hash that sends every key to 20: the
element of point 20 is selected. -/
theorem continuum_get_on_small_ring :
    small_ring ≠ [] ∧ sorted small_ring ∧
    continuum_t.get (fun _ => 20) small_ring "key" = Except.ok "b" :=
  ⟨by decide, by simp [sorted, small_ring, element_t.lt],
    (continuum_get_first_not_below (fun _ => 20) small_ring "key" (by decide)
      (by simp [sorted, small_ring, element_t.lt])).1 1 { point := 20, value := "b" } rfl
      (Nat.le_refl _) (by
        intro j e hj he
        have hj0 : j = 0 := by omega
        subst hj0
        simp [small_ring] at he
        subst he
        decide)⟩

end service

/-! ## One step of the accept loop -/

/-- C12: `finalize` as a step on the completion code.  With `operation_aborted` it
returns at once: nothing is attached, no accept is started, nothing is logged.  With any
other error it attaches nothing, logs the error and starts exactly one new accept.
Without error it hands the accepted connection and the actor's dispatch prototype to
`attach` exactly once and then starts exactly one new accept.  So, while the parent has
its acceptor, the step starts a new accept exactly when the code is not
`operation_aborted`. -/
theorem finalize_step {μ ν : Type} (ec : error_code) (socket : Nat) (w : accept_loop_t μ ν) :
    (ec.value = operation_aborted →
      accept_action_t.finalize ec socket w = (outcome_t.returned, w)) ∧
    (∀ acceptor, w.parent.m_acceptor = some acceptor →
      (ec.value ≠ 0 → ec.value ≠ operation_aborted →
        (accept_action_t.finalize ec socket w).1 = outcome_t.returned ∧
        (accept_action_t.finalize ec socket w).2.attached = w.attached ∧
        (accept_action_t.finalize ec socket w).2.async_accepts = w.async_accepts + 1 ∧
        (accept_action_t.finalize ec socket w).2.parent.m_log = w.parent.m_log ++
          [log_t.unable_to_accept_a_connection w.parent.name ec.value ec.message]) ∧
      (ec.value = 0 →
        (accept_action_t.finalize ec socket w).1 = outcome_t.returned ∧
        (accept_action_t.finalize ec socket w).2.attached =
          w.attached ++ [(socket, w.parent.name)] ∧
        (accept_action_t.finalize ec socket w).2.async_accepts = w.async_accepts + 1 ∧
        (accept_action_t.finalize ec socket w).2.parent = w.parent) ∧
      ((accept_action_t.finalize ec socket w).2.async_accepts = w.async_accepts + 1 ↔
        ec.value ≠ operation_aborted) ∧
      ((accept_action_t.finalize ec socket w).2.async_accepts = w.async_accepts ↔
        ec.value = operation_aborted)) := by
  have h125 : operation_aborted ≠ 0 := by decide
  refine ⟨?_, ?_⟩
  · intro h
    simp [accept_action_t.finalize, h, h125]
  · intro acceptor hacc
    by_cases h0 : ec.value = 0
    · have hne : ec.value ≠ operation_aborted := fun h => h125 (h ▸ h0)
      simp [accept_action_t.finalize, accept_action_t.call, h0, hacc, hne]
      intro h
      exact h125 h.symm
    · by_cases ha : ec.value = operation_aborted
      · simp [accept_action_t.finalize, accept_action_t.call, h0, ha, h125]
      · simp [accept_action_t.finalize, accept_action_t.call, h0, ha, hacc]

/-- C12, on the listening actor: a completion with error 24 is logged and followed by a
new accept, a clean completion attaches connection 7 and is followed by a new accept. -/
theorem finalize_step_on_listening_loop :
    (accept_action_t.finalize { value := 24, message := "Too many open files" } 7
        listening_loop).2.async_accepts = 2 ∧
    (accept_action_t.finalize { value := 24, message := "Too many open files" } 7
        listening_loop).2.attached = [] ∧
    (accept_action_t.finalize { value := 0, message := "Success" } 7
        listening_loop).2.attached = [(7, "node")] :=
  ⟨(((finalize_step { value := 24, message := "Too many open files" } 7 listening_loop).2
      { local_endpoint := { address := address.v4 2130706433, port := 10053 } } rfl).1
      (by decide) (by decide)).2.2.1,
    (((finalize_step { value := 24, message := "Too many open files" } 7 listening_loop).2
      { local_endpoint := { address := address.v4 2130706433, port := 10053 } } rfl).1
      (by decide) (by decide)).2.1,
    (((finalize_step { value := 0, message := "Success" } 7 listening_loop).2
      { local_endpoint := { address := address.v4 2130706433, port := 10053 } } rfl).2.1
      rfl).2.1⟩

namespace engine

/-! ## What an abort publishes -/

/-- C14, as the code has it: the value published by `publication_t::abort` determines
the message and nothing else.  Two aborts with different messages publish different
results, whatever their codes; two aborts with the same message publish the same result,
whatever their codes. -/
theorem abort_result_determines_message_only (m_parent : driver_t) (code1 code2 : Int)
    (error1 error2 : String) (published : List publish_t) :
    (error1 ≠ error2 →
      publication_t.abort m_parent code1 error1 published ≠
        publication_t.abort m_parent code2 error2 published) ∧
    (error1 = error2 →
      publication_t.abort m_parent code1 error1 published =
        publication_t.abort m_parent code2 error2 published) := by
  constructor
  · intro hne heq
    apply hne
    simp only [publication_t.abort, engine_t.publish] at heq
    have h1 := List.append_cancel_left heq
    simp [helpers.make_json] at h1
    exact h1
  · rintro rfl
    rfl

/-- C14, counterexample to the claim as stated: aborts with the message `timed out` and
the different codes 1 and 2 publish the same result. -/
theorem abort_forgets_the_code :
    ((1 : Int) ≠ 2) ∧
    publication_t.abort { method := "ping", engine := "app" } 1 "timed out" [] =
      publication_t.abort { method := "ping", engine := "app" } 2 "timed out" [] :=
  ⟨by decide, rfl⟩

/-- C14, the amended statement at two concrete aborts with different messages. -/
theorem abort_result_differs_on_messages :
    ("timed out" ≠ "overloaded") ∧
    publication_t.abort { method := "ping", engine := "app" } 1 "timed out" [] ≠
      publication_t.abort { method := "ping", engine := "app" } 1 "overloaded" [] :=
  ⟨by decide,
    (abort_result_determines_message_only { method := "ping", engine := "app" } 1 1
      "timed out" "overloaded" []).1 (by decide)⟩

end engine

namespace lines

/-! ## What drives a multi-part receive -/

theorem recv_head_queue_nil {α ω : Type} (mp : msgpack_t α ω) (head : item_t α)
    (flags : Flags) (syslog : List String) :
    channel_t.recv_head queue_socket mp head flags { sock := [], syslog := syslog } =
      (false, head, { sock := [], syslog := syslog }) := by
  cases head <;>
    simp [channel_t.recv_head, channel_t.recv, channel_t.recv_raw, socket_t.recv, queue_socket]

theorem recv_head_queue_cons {α ω : Type} (mp : msgpack_t α ω) (head : item_t α)
    (flags : Flags) (message : message_t) (syslog : List String) :
    ∃ (r : Bool) (head1 : item_t α) (syslog1 : List String),
      ∀ (more : Bool) (rest : List (message_t × Bool)),
        channel_t.recv_head queue_socket mp head flags
            { sock := (message, more) :: rest, syslog := syslog } =
          (r, head1, { sock := rest, syslog := syslog1 }) := by
  cases head with
  | value v =>
    cases hu : mp.unpack message with
    | error e =>
      exact ⟨false, item_t.value v, _, fun more rest => by
        simp [channel_t.recv_head, channel_t.recv, socket_t.recv, queue_socket, hu]; rfl⟩
    | ok object =>
      rcases hc : mp.convert object v with ⟨c, v1⟩
      cases c with
      | error e =>
        exact ⟨false, item_t.value v1, _, fun more rest => by
          simp [channel_t.recv_head, channel_t.recv, socket_t.recv, queue_socket, hu, hc]; rfl⟩
      | ok u =>
        exact ⟨true, item_t.value v1, syslog, fun more rest => by
          simp [channel_t.recv_head, channel_t.recv, socket_t.recv, queue_socket, hu, hc]⟩
  | raw s =>
    exact ⟨true, item_t.raw message, syslog, fun more rest => by
      simp [channel_t.recv_head, channel_t.recv_raw, socket_t.recv, queue_socket, raw.unpack,
        std_string.assign]⟩
  | message m =>
    exact ⟨true, item_t.message message, syslog, fun more rest => by
      simp [channel_t.recv_head, socket_t.recv, queue_socket]⟩

theorem recv_multi_queue_drop {α ω : Type} (mp : msgpack_t α ω) (flags : Flags) :
    ∀ (items : List (item_t α)) (q : List (message_t × Bool)) (syslog : List String),
    (channel_t.recv_multi queue_socket mp items flags { sock := q, syslog := syslog }).1 = true →
    items.length ≤ q.length ∧
    (channel_t.recv_multi queue_socket mp items flags
      { sock := q, syslog := syslog }).2.2.sock = q.drop items.length
  | [], q, syslog, _ => by simp [channel_t.recv_multi]
  | head :: tail, [], syslog, h => by
    simp [channel_t.recv_multi, recv_head_queue_nil] at h
  | head :: tail, (message, more) :: rest, syslog, h => by
    obtain ⟨r, head1, syslog1, hr⟩ := recv_head_queue_cons mp head flags message syslog
    cases r with
    | false => simp [channel_t.recv_multi, hr] at h
    | true =>
      simp only [channel_t.recv_multi, hr] at h ⊢
      obtain ⟨h1, h2⟩ := recv_multi_queue_drop mp flags tail rest syslog1 h
      exact ⟨by simpa using h1, by simpa using h2⟩

theorem recv_multi_queue_ignores_more {α ω : Type} (mp : msgpack_t α ω) (flags : Flags) :
    ∀ (items : List (item_t α)) (q q1 : List (message_t × Bool)) (syslog : List String),
    q.map Prod.fst = q1.map Prod.fst →
    (channel_t.recv_multi queue_socket mp items flags { sock := q, syslog := syslog }).1 =
      (channel_t.recv_multi queue_socket mp items flags { sock := q1, syslog := syslog }).1 ∧
    (channel_t.recv_multi queue_socket mp items flags { sock := q, syslog := syslog }).2.1 =
      (channel_t.recv_multi queue_socket mp items flags { sock := q1, syslog := syslog }).2.1 ∧
    (channel_t.recv_multi queue_socket mp items flags
        { sock := q, syslog := syslog }).2.2.sock.map Prod.fst =
      (channel_t.recv_multi queue_socket mp items flags
        { sock := q1, syslog := syslog }).2.2.sock.map Prod.fst
  | [], q, q1, syslog, h => by simpa [channel_t.recv_multi] using h
  | head :: tail, [], q1, syslog, h => by
    have : q1 = [] := by simpa using h.symm
    subst this
    simp
  | head :: tail, (message, more) :: rest, [], syslog, h => by simp at h
  | head :: tail, (message, more) :: rest, (message1, more1) :: rest1, syslog, h => by
    simp only [List.map_cons, List.cons.injEq] at h
    obtain ⟨hm, hrest⟩ := h
    subst hm
    obtain ⟨r, head1, syslog1, hr⟩ := recv_head_queue_cons mp head flags message syslog
    cases r with
    | false => simpa [channel_t.recv_multi, hr] using hrest
    | true =>
      have ih := recv_multi_queue_ignores_more mp flags tail rest rest1 syslog1 hrest
      simpa [channel_t.recv_multi, hr] using ih

theorem recv_head_traced {σ α ω : Type} (m_socket : zmq_socket_t σ) (mp : msgpack_t α ω)
    (head : item_t α) (flags : Flags) (w : net_t (σ × List call_t)) :
    ∃ o, (channel_t.recv_head (traced m_socket) mp head flags w).2.2.sock.2 =
        w.sock.2 ++ [call_t.recv flags o] ∧
      ((channel_t.recv_head (traced m_socket) mp head flags w).1 = true →
        (call_t.recv flags o).succeeded = true) := by
  cases head with
  | value v =>
    rcases h : m_socket.recv [] flags w.sock.1 with ⟨o, m, s⟩
    refine ⟨o, ?_⟩
    rcases o with e | b
    · simp [channel_t.recv_head, channel_t.recv, socket_t.recv, traced, h, call_t.succeeded]
    · cases b
      · simp [channel_t.recv_head, channel_t.recv, socket_t.recv, traced, h, call_t.succeeded]
      · cases hu : mp.unpack m with
        | error e =>
          simp [channel_t.recv_head, channel_t.recv, socket_t.recv, traced, h, hu,
            call_t.succeeded]
        | ok object =>
          rcases hc : mp.convert object v with ⟨c, v1⟩
          cases c <;>
            simp [channel_t.recv_head, channel_t.recv, socket_t.recv, traced, h, hu, hc,
              call_t.succeeded]
  | raw r =>
    rcases h : m_socket.recv [] flags w.sock.1 with ⟨o, m, s⟩
    refine ⟨o, ?_⟩
    rcases o with e | b
    · simp [channel_t.recv_head, channel_t.recv_raw, socket_t.recv, traced, h,
        call_t.succeeded]
    · cases b <;>
        simp [channel_t.recv_head, channel_t.recv_raw, socket_t.recv, traced, h,
          call_t.succeeded]
  | message m0 =>
    rcases h : m_socket.recv m0 flags w.sock.1 with ⟨o, m, s⟩
    refine ⟨o, ?_⟩
    rcases o with e | b
    · simp [channel_t.recv_head, socket_t.recv, traced, h, call_t.succeeded]
    · cases b <;> simp [channel_t.recv_head, socket_t.recv, traced, h, call_t.succeeded]

theorem recv_multi_journal {σ α ω : Type} (m_socket : zmq_socket_t σ) (mp : msgpack_t α ω)
    (flags : Flags) : ∀ (items : List (item_t α)) (w : net_t (σ × List call_t)),
    ∃ calls : List call_t,
      (channel_t.recv_multi (traced m_socket) mp items flags w).2.2.sock.2 = w.sock.2 ++ calls ∧
      calls.length ≤ items.length ∧
      ((channel_t.recv_multi (traced m_socket) mp items flags w).1 = true →
        calls.length = items.length) ∧
      (∀ c ∈ calls, ∃ o, c = call_t.recv flags o) ∧
      (∀ i c, calls[i]? = some c → i + 1 < calls.length → c.succeeded = true)
  | [], w => ⟨[], by simp [channel_t.recv_multi]⟩
  | head :: tail, w => by
    obtain ⟨o, h1, h2⟩ := recv_head_traced m_socket mp head flags w
    rcases hs : channel_t.recv_head (traced m_socket) mp head flags w with ⟨b, head1, w1⟩
    rw [hs] at h1 h2
    simp only at h1 h2
    cases b with
    | false =>
      refine ⟨[call_t.recv flags o], by simpa [channel_t.recv_multi, hs] using h1, by simp,
        by simp [channel_t.recv_multi, hs], by simp, ?_⟩
      intro i c hc hlt
      simp at hlt
    | true =>
      obtain ⟨calls, c1, c2, c3, c4, c5⟩ := recv_multi_journal m_socket mp flags tail w1
      refine ⟨call_t.recv flags o :: calls, ?_, ?_, ?_, ?_, ?_⟩
      · simp only [channel_t.recv_multi, hs]
        rw [c1, h1]
        simp
      · simpa using c2
      · simp only [channel_t.recv_multi, hs]
        intro h
        simp [c3 h]
      · intro c hc
        rcases List.mem_cons.mp hc with rfl | hmem
        · exact ⟨o, rfl⟩
        · exact c4 c hmem
      · intro i c hc hlt
        cases i with
        | zero =>
          simp at hc
          rw [← hc]
          exact h2 rfl
        | succ j =>
          simp only [List.getElem?_cons_succ] at hc
          apply c5 j c hc
          simp at hlt
          omega

theorem recv_multi_at_first_failure {σ α ω : Type} (m_socket : zmq_socket_t σ)
    (mp : msgpack_t α ω) (flags : Flags) (before : List (item_t α)) (failing : item_t α)
    (after before1 : List (item_t α)) (w wk : net_t σ)
    (hbefore : channel_t.recv_multi m_socket mp before flags w = (true, before1, wk))
    (hfailing : (channel_t.recv_head m_socket mp failing flags wk).1 = false) :
    channel_t.recv_multi m_socket mp (before ++ failing :: after) flags w =
      (false, before1 ++ (channel_t.recv_head m_socket mp failing flags wk).2.1 :: after,
        (channel_t.recv_head m_socket mp failing flags wk).2.2) := by
  rcases hh : channel_t.recv_head m_socket mp failing flags wk with ⟨b, f1, w1⟩
  rw [hh] at hfailing
  simp only at hfailing
  subst hfailing
  rw [recv_multi_append, hbefore]
  simp [channel_t.recv_multi, hh]

theorem recv_head_queue_drop {α ω : Type} (mp : msgpack_t α ω) (head : item_t α)
    (flags : Flags) (q : List (message_t × Bool)) (syslog : List String) :
    (channel_t.recv_head queue_socket mp head flags { sock := q, syslog := syslog }).2.2.sock =
      q.drop 1 := by
  cases q with
  | nil => simp [recv_head_queue_nil]
  | cons frame rest =>
    obtain ⟨r, head1, syslog1, hr⟩ := recv_head_queue_cons mp head flags frame.1 syslog
    have := hr frame.2 rest
    simp only [Prod.mk.eta] at this
    simp [this]

theorem recv_head_untraced {σ α ω : Type} (m_socket : zmq_socket_t σ) (mp : msgpack_t α ω)
    (head : item_t α) (flags : Flags) (w : net_t (σ × List call_t)) :
    (channel_t.recv_head (traced m_socket) mp head flags w).1 =
        (channel_t.recv_head m_socket mp head flags
          { sock := w.sock.1, syslog := w.syslog }).1 ∧
      (channel_t.recv_head (traced m_socket) mp head flags w).2.1 =
        (channel_t.recv_head m_socket mp head flags
          { sock := w.sock.1, syslog := w.syslog }).2.1 ∧
      (channel_t.recv_head (traced m_socket) mp head flags w).2.2.sock.1 =
        (channel_t.recv_head m_socket mp head flags
          { sock := w.sock.1, syslog := w.syslog }).2.2.sock ∧
      (channel_t.recv_head (traced m_socket) mp head flags w).2.2.syslog =
        (channel_t.recv_head m_socket mp head flags
          { sock := w.sock.1, syslog := w.syslog }).2.2.syslog := by
  cases head with
  | value v =>
    rcases h : m_socket.recv [] flags w.sock.1 with ⟨o, m, s⟩
    rcases o with e | b
    · simp [channel_t.recv_head, channel_t.recv, socket_t.recv, traced, h]
    · cases b
      · simp [channel_t.recv_head, channel_t.recv, socket_t.recv, traced, h]
      · cases hu : mp.unpack m with
        | error e =>
          simp [channel_t.recv_head, channel_t.recv, socket_t.recv, traced, h, hu]
        | ok object =>
          rcases hc : mp.convert object v with ⟨c, v1⟩
          cases c <;>
            simp [channel_t.recv_head, channel_t.recv, socket_t.recv, traced, h, hu, hc]
  | raw r =>
    rcases h : m_socket.recv [] flags w.sock.1 with ⟨o, m, s⟩
    rcases o with e | b
    · simp [channel_t.recv_head, channel_t.recv_raw, socket_t.recv, traced, h]
    · cases b <;> simp [channel_t.recv_head, channel_t.recv_raw, socket_t.recv, traced, h]
  | message m0 =>
    rcases h : m_socket.recv m0 flags w.sock.1 with ⟨o, m, s⟩
    rcases o with e | b
    · simp [channel_t.recv_head, socket_t.recv, traced, h]
    · cases b <;> simp [channel_t.recv_head, socket_t.recv, traced, h]

theorem recv_multi_untraced {σ α ω : Type} (m_socket : zmq_socket_t σ) (mp : msgpack_t α ω)
    (flags : Flags) : ∀ (items : List (item_t α)) (w : net_t (σ × List call_t)),
    (channel_t.recv_multi (traced m_socket) mp items flags w).1 =
        (channel_t.recv_multi m_socket mp items flags
          { sock := w.sock.1, syslog := w.syslog }).1 ∧
      (channel_t.recv_multi (traced m_socket) mp items flags w).2.1 =
        (channel_t.recv_multi m_socket mp items flags
          { sock := w.sock.1, syslog := w.syslog }).2.1 ∧
      (channel_t.recv_multi (traced m_socket) mp items flags w).2.2.sock.1 =
        (channel_t.recv_multi m_socket mp items flags
          { sock := w.sock.1, syslog := w.syslog }).2.2.sock ∧
      (channel_t.recv_multi (traced m_socket) mp items flags w).2.2.syslog =
        (channel_t.recv_multi m_socket mp items flags
          { sock := w.sock.1, syslog := w.syslog }).2.2.syslog
  | [], w => by simp [channel_t.recv_multi]
  | head :: tail, w => by
    obtain ⟨h1, h2, h3, h4⟩ := recv_head_untraced m_socket mp head flags w
    rcases hs : channel_t.recv_head (traced m_socket) mp head flags w with ⟨b, head1, w1⟩
    rcases hp : channel_t.recv_head m_socket mp head flags
      { sock := w.sock.1, syslog := w.syslog } with ⟨b0, head0, w0⟩
    rw [hs, hp] at h1 h2 h3 h4
    simp only at h1 h2 h3 h4
    subst h1
    subst h2
    cases b with
    | false => simp [channel_t.recv_multi, hs, hp, h3, h4]
    | true =>
      have ih := recv_multi_untraced m_socket mp flags tail w1
      have hw : ({ sock := w1.sock.1, syslog := w1.syslog } : net_t σ) = w0 := by
        cases w0
        simp_all
      rw [hw] at ih
      simpa [channel_t.recv_multi, hs, hp] using ih

/-- C13, as the code has it: `recv_multi` is driven by the arity of the destination
tuple and never looks at the more-flag.

On any socket it makes one transport `recv` per component, with the caller's flags, and
stops after the first component whose `recv` returns false, be it for the transport or
for the decoding.  In a run that returns true the journal holds exactly `n` calls for
`n` components.  A run returns false exactly when the tuple splits into components that
were all received, a component whose `recv` then returns false, and the rest; in that
run the journal holds one call for each component received and one for the failing
component, none for the rest, and the tuple and the state are those the failing `recv`
left.  The traced run returns what the plain run returns.  Components are received in
tuple order: a tuple of one component is received by one `recv` into it, and once the
first components of a tuple have been received the call continues as a call on the
remaining components from the state reached.

On the queue, a run that returns true has consumed exactly `n` frames; a run that fails
at a component has consumed the frames of the components before it and the frame, if
any, of the failing component, and nothing more; and the result, the tuple and the
frames left over are the same whatever more-flags the frames carry. -/
theorem recv_multi_driven_by_arity {σ α ω : Type} (m_socket : zmq_socket_t σ)
    (mp : msgpack_t α ω) (items : List (item_t α)) (flags : Flags) (w : net_t σ)
    (q q1 : List (message_t × Bool)) (syslog : List String) :
    ((channel_t.recv_multi (traced m_socket) mp items flags
        { sock := (w.sock, []), syslog := w.syslog }).2.2.sock.2.length ≤ items.length ∧
      ((channel_t.recv_multi (traced m_socket) mp items flags
          { sock := (w.sock, []), syslog := w.syslog }).1 = true →
        (channel_t.recv_multi (traced m_socket) mp items flags
          { sock := (w.sock, []), syslog := w.syslog }).2.2.sock.2.length = items.length) ∧
      (∀ c ∈ (channel_t.recv_multi (traced m_socket) mp items flags
          { sock := (w.sock, []), syslog := w.syslog }).2.2.sock.2,
        ∃ o, c = call_t.recv flags o) ∧
      (∀ i c, (channel_t.recv_multi (traced m_socket) mp items flags
          { sock := (w.sock, []), syslog := w.syslog }).2.2.sock.2[i]? = some c →
        i + 1 < (channel_t.recv_multi (traced m_socket) mp items flags
          { sock := (w.sock, []), syslog := w.syslog }).2.2.sock.2.length →
        c.succeeded = true)) ∧
    ((channel_t.recv_multi (traced m_socket) mp items flags
          { sock := (w.sock, []), syslog := w.syslog }).1 =
        (channel_t.recv_multi m_socket mp items flags w).1 ∧
      (channel_t.recv_multi (traced m_socket) mp items flags
          { sock := (w.sock, []), syslog := w.syslog }).2.1 =
        (channel_t.recv_multi m_socket mp items flags w).2.1) ∧
    ((channel_t.recv_multi m_socket mp items flags w).1 = false ↔
      ∃ before failing after before1 wk,
        items = before ++ failing :: after ∧
        channel_t.recv_multi (traced m_socket) mp before flags
          { sock := (w.sock, []), syslog := w.syslog } = (true, before1, wk) ∧
        (channel_t.recv_head (traced m_socket) mp failing flags wk).1 = false) ∧
    (∀ before failing after before1 wk,
      items = before ++ failing :: after →
      channel_t.recv_multi (traced m_socket) mp before flags
        { sock := (w.sock, []), syslog := w.syslog } = (true, before1, wk) →
      (channel_t.recv_head (traced m_socket) mp failing flags wk).1 = false →
      channel_t.recv_multi (traced m_socket) mp items flags
          { sock := (w.sock, []), syslog := w.syslog } =
        (false,
          before1 ++ (channel_t.recv_head (traced m_socket) mp failing flags wk).2.1 :: after,
          (channel_t.recv_head (traced m_socket) mp failing flags wk).2.2) ∧
      wk.sock.2.length = before.length ∧
      (channel_t.recv_multi (traced m_socket) mp items flags
        { sock := (w.sock, []), syslog := w.syslog }).2.2.sock.2.length = before.length + 1) ∧
    ((channel_t.recv_multi queue_socket mp items flags { sock := q, syslog := syslog }).1 = true →
      items.length ≤ q.length ∧
      (channel_t.recv_multi queue_socket mp items flags
        { sock := q, syslog := syslog }).2.2.sock = q.drop items.length) ∧
    (∀ before failing after,
      items = before ++ failing :: after →
      (channel_t.recv_multi queue_socket mp before flags
        { sock := q, syslog := syslog }).1 = true →
      (channel_t.recv_head queue_socket mp failing flags
        (channel_t.recv_multi queue_socket mp before flags
          { sock := q, syslog := syslog }).2.2).1 = false →
      channel_t.recv_multi queue_socket mp items flags { sock := q, syslog := syslog } =
        (false,
          (channel_t.recv_multi queue_socket mp before flags
              { sock := q, syslog := syslog }).2.1 ++
            (channel_t.recv_head queue_socket mp failing flags
              (channel_t.recv_multi queue_socket mp before flags
                { sock := q, syslog := syslog }).2.2).2.1 :: after,
          (channel_t.recv_head queue_socket mp failing flags
            (channel_t.recv_multi queue_socket mp before flags
              { sock := q, syslog := syslog }).2.2).2.2) ∧
      (channel_t.recv_multi queue_socket mp items flags
        { sock := q, syslog := syslog }).2.2.sock = q.drop (before.length + 1)) ∧
    (q.map Prod.fst = q1.map Prod.fst →
      (channel_t.recv_multi queue_socket mp items flags { sock := q, syslog := syslog }).1 =
        (channel_t.recv_multi queue_socket mp items flags { sock := q1, syslog := syslog }).1 ∧
      (channel_t.recv_multi queue_socket mp items flags { sock := q, syslog := syslog }).2.1 =
        (channel_t.recv_multi queue_socket mp items flags { sock := q1, syslog := syslog }).2.1 ∧
      (channel_t.recv_multi queue_socket mp items flags
          { sock := q, syslog := syslog }).2.2.sock.map Prod.fst =
        (channel_t.recv_multi queue_socket mp items flags
          { sock := q1, syslog := syslog }).2.2.sock.map Prod.fst) ∧
    ((∀ head, items = [head] →
        channel_t.recv_multi m_socket mp items flags w =
          ((channel_t.recv_head m_socket mp head flags w).1,
            [(channel_t.recv_head m_socket mp head flags w).2.1],
            (channel_t.recv_head m_socket mp head flags w).2.2)) ∧
      (∀ before rest before1 wk,
        items = before ++ rest →
        channel_t.recv_multi m_socket mp before flags w = (true, before1, wk) →
        channel_t.recv_multi m_socket mp items flags w =
          ((channel_t.recv_multi m_socket mp rest flags wk).1,
            before1 ++ (channel_t.recv_multi m_socket mp rest flags wk).2.1,
            (channel_t.recv_multi m_socket mp rest flags wk).2.2))) := by
  obtain ⟨calls, c1, c2, c3, c4, c5⟩ := recv_multi_journal m_socket mp flags items
    { sock := (w.sock, []), syslog := w.syslog }
  obtain ⟨u1, u2, -, -⟩ := recv_multi_untraced m_socket mp flags items
    { sock := (w.sock, []), syslog := w.syslog }
  simp only [List.nil_append] at c1
  simp only at u1 u2
  have split : ∀ (before : List (item_t α)) (failing : item_t α)
      (after before1 : List (item_t α)) (wk : net_t (σ × List call_t)),
      items = before ++ failing :: after →
      channel_t.recv_multi (traced m_socket) mp before flags
        { sock := (w.sock, []), syslog := w.syslog } = (true, before1, wk) →
      (channel_t.recv_head (traced m_socket) mp failing flags wk).1 = false →
      channel_t.recv_multi (traced m_socket) mp items flags
          { sock := (w.sock, []), syslog := w.syslog } =
        (false,
          before1 ++ (channel_t.recv_head (traced m_socket) mp failing flags wk).2.1 :: after,
          (channel_t.recv_head (traced m_socket) mp failing flags wk).2.2) := by
    intro before failing after before1 wk e1 e2 e3
    rw [e1]
    exact recv_multi_at_first_failure (traced m_socket) mp flags before failing after before1
      _ wk e2 e3
  refine ⟨?_, ⟨u1, u2⟩, ⟨?_, ?_⟩, ?_, recv_multi_queue_drop mp flags items q syslog, ?_,
    recv_multi_queue_ignores_more mp flags items q q1 syslog, ?_, ?_⟩
  · rw [c1]
    exact ⟨c2, c3, c4, c5⟩
  · intro h
    rw [← u1] at h
    exact recv_multi_false_split (traced m_socket) mp flags items _ h
  · rintro ⟨before, failing, after, before1, wk, e1, e2, e3⟩
    rw [← u1, split before failing after before1 wk e1 e2 e3]
  · intro before failing after before1 wk e1 e2 e3
    obtain ⟨calls0, d1, -, d3, -, -⟩ := recv_multi_journal m_socket mp flags before
      { sock := (w.sock, []), syslog := w.syslog }
    obtain ⟨o, g1, -⟩ := recv_head_traced m_socket mp failing flags wk
    have hlen : wk.sock.2.length = before.length := by
      rw [e2] at d1 d3
      simp only [List.nil_append] at d1
      rw [d1]
      exact d3 rfl
    refine ⟨split before failing after before1 wk e1 e2 e3, hlen, ?_⟩
    rw [split before failing after before1 wk e1 e2 e3]
    simp only
    rw [g1]
    simp [hlen]
  · intro before failing after e1 e2 e3
    rcases hb : channel_t.recv_multi queue_socket mp before flags
      { sock := q, syslog := syslog } with ⟨b, before1, wk⟩
    rw [hb] at e2 e3
    simp only at e2 e3
    subst e2
    have hq := (recv_multi_queue_drop mp flags before q syslog (by rw [hb])).2
    rw [hb] at hq
    simp only at hq
    have hfull := recv_multi_at_first_failure queue_socket mp flags before failing after
      before1 _ wk hb e3
    rw [e1, hfull]
    refine ⟨rfl, ?_⟩
    simp only
    cases wk with
    | mk sock1 syslog1 =>
      simp only at hq
      subst hq
      rw [recv_head_queue_drop]
      simp [List.drop_drop, Nat.add_comm]
  · rintro head rfl
    rcases hh : channel_t.recv_head m_socket mp head flags w with ⟨b, head1, w1⟩
    cases b <;> simp [channel_t.recv_multi, hh]
  · intro before rest before1 wk e1 e2
    rw [e1, recv_multi_append, e2]
    simp

/-- C13, counterexample to the claim as stated.  A message of three frames received into
a tuple of two raw strings: the call returns true and the last frame of the message is
still in the queue.  Two messages of one frame each received into the same tuple: the
call returns true and has consumed the second message as well. -/
theorem recv_multi_stops_at_arity :
    (channel_t.recv_multi queue_socket raw_codec [item_t.raw [], item_t.raw []] 0
        { sock := [([1], true), ([2], true), ([3], false)], syslog := [] }).1 = true ∧
    (channel_t.recv_multi queue_socket raw_codec [item_t.raw [], item_t.raw []] 0
        { sock := [([1], true), ([2], true), ([3], false)], syslog := [] }).2.2.sock
      = [([3], false)] ∧
    (channel_t.recv_multi queue_socket raw_codec [item_t.raw [], item_t.raw []] 0
        { sock := [([1], false), ([2], false)], syslog := [] }).1 = true ∧
    (channel_t.recv_multi queue_socket raw_codec [item_t.raw [], item_t.raw []] 0
        { sock := [([1], false), ([2], false)], syslog := [] }).2.2.sock = [] ∧
    (channel_t.recv_multi queue_socket raw_codec [item_t.raw [], item_t.raw []] 0
        { sock := [([1], false), ([2], false)], syslog := [] }).2.1
      = [item_t.raw [1], item_t.raw [2]] := by
  decide

/-- C13, the amended statement on two inputs.  A three-frame message and a two-slot
tuple: the call returns true and two frames are consumed.  Three frames, the second not
a packed object, and a three-slot tuple: the call fails at the second slot, having
consumed two frames and left the third. -/
theorem recv_multi_consumes_by_arity_on_queue :
    ((channel_t.recv_multi queue_socket raw_codec [item_t.raw [], item_t.raw []] 0
        { sock := [([1], true), ([2], true), ([3], false)], syslog := [] }).1 = true ∧
      (channel_t.recv_multi queue_socket raw_codec [item_t.raw [], item_t.raw []] 0
          { sock := [([1], true), ([2], true), ([3], false)], syslog := [] }).2.2.sock
        = List.drop 2 [([1], true), ([2], true), ([3], false)]) ∧
    ((channel_t.recv_multi queue_socket raw_codec [item_t.value [9]] 0
        { sock := [([161, 5], true), ([1, 2, 3], true), ([4], false)], syslog := [] }).1
        = true ∧
      (channel_t.recv_head queue_socket raw_codec (item_t.value [8]) 0
        (channel_t.recv_multi queue_socket raw_codec [item_t.value [9]] 0
          { sock := [([161, 5], true), ([1, 2, 3], true), ([4], false)],
            syslog := [] }).2.2).1 = false ∧
      (channel_t.recv_multi queue_socket raw_codec
          [item_t.value [9], item_t.value [8], item_t.raw [7]] 0
          { sock := [([161, 5], true), ([1, 2, 3], true), ([4], false)], syslog := [] }).2.2.sock
        = List.drop 2 [([161, 5], true), ([1, 2, 3], true), ([4], false)]) :=
  ⟨⟨by decide,
    ((recv_multi_driven_by_arity queue_socket raw_codec [item_t.raw [], item_t.raw []] 0
      { sock := [], syslog := [] } [([1], true), ([2], true), ([3], false)] [] []).2.2.2.2.1
      (by decide)).2⟩,
   ⟨by decide, by decide,
    ((recv_multi_driven_by_arity queue_socket raw_codec
      [item_t.value [9], item_t.value [8], item_t.raw [7]] 0
      { sock := [], syslog := [] } [([161, 5], true), ([1, 2, 3], true), ([4], false)] []
      []).2.2.2.2.2.1 [item_t.value [9]] (item_t.value [8]) [item_t.raw [7]] rfl
      (by decide) (by decide)).2⟩⟩

end lines

end cocaine
